import Mathlib

/-!
Verification of the v4-chart-api event-ingestion and aggregation pipeline.

The definitions below are a shallow embedding of the TypeScript sources
`src/swap-events/swap-events.service.ts` and
`src/aggregation/aggregation.service.ts` together with the mongoose schemas.

Modelling conventions:
* JavaScript `number` (float) values are idealized as exact rationals (`ℚ`);
  `BigInt` values are `ℤ`; unsigned on-chain integers are `ℕ`.
* Mongo collections are association lists keyed by their unique index
  (`Pool(poolId)`, `SwapEvent(transactionHash, logIndex)`, `Token(address)`,
  `Candle(tokenAddress, date)`, `SyncState(poolManagerAddress)`); the
  lowercase setters on address fields are elided (addresses are assumed
  canonical).
* Timestamps are seconds since the epoch (`ℕ`); `roundTimestamp` truncates
  with modular arithmetic, matching the UTC bucketing.
* Effects of `await`ed mongoose calls are applied in program order; the
  event-application path is single threaded, as the source enforces with its
  queue.  A `Promise.all` of independent writes is applied left to right
  (the writes touch disjoint collections).
* Logger calls are modelled as a returned list of `LogEntry` values
  (level + message); `console.log` noise is ignored.
* Candle OHLC strings are stored via `toFixed(6)`; we keep their numeric
  value exactly and record separately, as a boolean flag, whether the stored
  string is the literal `"0"` (schema default) — the source branches on that
  string comparison, and `toFixed(6)` output is never the literal `"0"`.
-/

namespace V4Chart

/-- The literal zero address used throughout the source. -/
def zeroAddress : String := "0x0000000000000000000000000000000000000000"

/-! ### Price math (`swap-events.service.ts` lines 22-75) -/

/-- The `exponentToBigDecimal(decimals)`: `Math.pow(10, decimals)` (source line 25),
    idealized over exact rationals. -/
def exponentToBigDecimal (decimals : ℕ) : ℚ := 10 ^ decimals

/-- The `safeDiv(numerator, denominator)` (source line 32):
    `denominator !== 0 ? numerator / denominator : 0`. -/
def safeDiv (numerator denominator : ℚ) : ℚ :=
  if denominator ≠ 0 then numerator / denominator else 0

/-- The `Q192 = 2n ** 192n` (source line 51). -/
def Q192 : ℕ := 2 ^ 192

/-- Result record of `sqrtPriceX96ToTokenPrices`. -/
structure TokenPrices where
  token0Price : ℚ
  token1Price : ℚ
deriving DecidableEq, Repr

/-- The `sqrtPriceX96ToTokenPrices(sqrtPriceX96, token0Decimals, token1Decimals)`
    (source lines 43-75).  `price1 = (p*p / 2^192) * 10^d0 / 10^d1`,
    `price0 = safeDiv(1, price1)`.  The float conversion `Number(...)` is
    idealized as exact rational arithmetic. -/
def sqrtPriceX96ToTokenPrices (sqrtPriceX96 : ℕ)
    (token0Decimals token1Decimals : ℕ) : TokenPrices :=
  let num : ℕ := sqrtPriceX96 * sqrtPriceX96
  let price1 : ℚ := ((num : ℚ) / (Q192 : ℚ)) * exponentToBigDecimal token0Decimals /
      exponentToBigDecimal token1Decimals
  let price0 : ℚ := safeDiv 1 price1
  { token0Price := price0, token1Price := price1 }

/-! ### Logging model -/

/-- A NestJS `Logger` severity level. -/
inductive LogLevel
  | info
  | warn
  | error
deriving DecidableEq, Repr

/-- One logger call: severity and message. -/
structure LogEntry where
  level : LogLevel
  msg : String
deriving DecidableEq, Repr

/-! ### Configuration and environment -/

/-- The configuration values the core consumes (`config.service.ts`). -/
structure Config where
  poolManagerAddress : String
  startingBlock : ℤ
  syncBatchSize : ℕ
  wrappedNativeAddress : String
  stablecoinWrappedNativePoolId : String
  stablecoinIsToken0 : Bool
  stablecoinAddresses : List String
  whitelistTokens : List String

/-- The `SYNC_BATCH_SIZE` default (`config.service.ts`: `parseInt(... || '1000', 10)`). -/
def defaultSyncBatchSize : ℕ := 1000

/-- The chain environment: ERC-20 reads the services perform over RPC.
    `decimals a` is what `contract.decimals()` resolves to for address `a`
    (already folded with the catch-default 18); `metadata a` is the
    `(decimals, symbol, name)` triple `fetchTokenMetadata` resolves
    (already folded with its catch-defaults). -/
structure Env where
  decimals : String → ℕ
  metadata : String → ℕ × String × String

/-- The concentrated-liquidity helpers `getAmount0` / `getAmount1` imported
    from `src/liquidityMath/liquidityAmounts` — that module is not part of
    this repository snapshot, so the two functions are parameters of the
    model (arguments: tickLower, tickUpper, current tick, liquidityDelta,
    sqrtPriceX96).  No claim depends on their values. -/
structure LiquidityMath where
  getAmount0 : ℤ → ℤ → ℤ → ℤ → ℕ → ℤ
  getAmount1 : ℤ → ℤ → ℤ → ℤ → ℕ → ℤ

/-! ### Persisted records (mongoose schemas) -/

/-- The `Pool` collection row (`pool.schema.ts`).  Numeric strings are modelled
    by their values; `liquidity` and the TVL fields are signed because the
    service stores `BigInt` sums that can go negative. -/
structure Pool where
  poolId : String
  currency0 : String
  currency1 : String
  fee : ℕ
  tickSpacing : ℤ
  hooks : String
  sqrtPriceX96 : ℕ
  tick : ℤ
  blockNumber : ℕ
  blockTimestamp : ℕ
  transactionHash : String
  token0Price : ℚ
  token1Price : ℚ
  liquidity : ℤ
  totalValueLockedToken0 : ℤ
  totalValueLockedToken1 : ℤ
deriving DecidableEq, Repr

/-- The `SwapEvent` collection row (`swap-event.schema.ts`). -/
structure SwapRec where
  poolAddress : String
  token0Address : String
  token1Address : String
  transactionHash : String
  blockNumber : ℕ
  blockTimestamp : ℕ
  sender : String
  recipient : String
  amount0 : ℤ
  amount1 : ℤ
  sqrtPriceX96 : ℕ
  liquidity : ℤ
  tick : ℤ
  logIndex : ℕ
  fee : ℕ
  token0Price : ℚ
  token1Price : ℚ
  amountUSD : ℚ
deriving DecidableEq, Repr

/-- The `Token` collection row (token schema). -/
structure Token where
  address : String
  symbol : String
  name : String
  decimals : ℕ
  volume : ℤ
  volumeUSD : ℚ
  untrackedVolumeUSD : ℚ
  feesUSD : ℚ
  totalValueLocked : ℤ
  totalValueLockedUSD : ℚ
  derivedBTC : ℚ
  txCount : ℕ
  whitelistPools : List String
deriving DecidableEq, Repr

/-- Candle lifecycle status (`token-minute.schema.ts` `RecordStatus`). -/
inductive RecordStatus
  | current
  | finalized
deriving DecidableEq, Repr

/-- A candle row (TokenMinute / TokenHour / TokenDay — the three schemas carry
    the same fields).  OHLC values are stored as strings via `toFixed(6)`;
    we keep the numeric value and, for the two fields whose stored string the
    source compares against the literal `"0"` (`open` and `low`), a boolean
    flag recording whether the stored string is that literal (only the schema
    default produces it; `toFixed(6)` output never does). -/
structure Candle where
  status : RecordStatus
  volume : ℤ
  volumeUSD : ℚ
  untrackedVolumeUSD : ℚ
  feesUSD : ℚ
  totalValueLocked : ℤ
  totalValueLockedUSD : ℚ
  priceUSD : ℚ
  open_ : ℚ
  openIsZeroStr : Bool
  high : ℚ
  low : ℚ
  lowIsZeroStr : Bool
  close : ℚ
  txCount : ℕ
deriving DecidableEq, Repr

/-- The `SyncState` collection row (`sync-state.schema.ts`). -/
structure SyncStateRec where
  poolManagerAddress : String
  lastSyncedBlock : ℤ
  currentBlock : ℤ
  isInitialSyncComplete : Bool
deriving DecidableEq, Repr

/-! ### Collections as association lists keyed by the unique index -/

/-- Lookup by unique key (mongoose `findOne` on the indexed key). -/
def lookupA {α β : Type} [DecidableEq α] : List (α × β) → α → Option β
  | [], _ => none
  | (k, v) :: rest, a => if k = a then some v else lookupA rest a

/-- In-place update of the row with the given key, if present
    (mongoose `updateOne` without upsert: no-op when the key is absent). -/
def updateA {α β : Type} [DecidableEq α] : List (α × β) → α → β → List (α × β)
  | [], _, _ => []
  | (k, v) :: rest, a, b =>
    if k = a then (k, b) :: rest else (k, v) :: updateA rest a b

/-- Field-wise update of the row with the given key, if present
    (mongoose `updateOne` setting some fields: no-op when the key is absent). -/
def modifyA {α β : Type} [DecidableEq α] : List (α × β) → α → (β → β) → List (α × β)
  | [], _, _ => []
  | (k, v) :: rest, a, f =>
    if k = a then (k, f v) :: rest else (k, v) :: modifyA rest a f

/-- Insertion of a fresh row (mongoose `create`); callers only insert after a
    failed lookup, so key uniqueness is maintained. -/
def insertA {α β : Type} [DecidableEq α] (m : List (α × β)) (a : α) (b : β) :
    List (α × β) :=
  (a, b) :: m

/-- Candle collection: keyed by the unique `(tokenAddress, date)` index. -/
abbrev CandleMap : Type := List ((String × ℕ) × Candle)

/-- The whole database: one association list per collection. -/
structure DB where
  pools : List (String × Pool)
  swaps : List ((String × ℕ) × SwapRec)
  tokens : List (String × Token)
  minuteCandles : CandleMap
  hourCandles : CandleMap
  dayCandles : CandleMap
  syncStates : List (String × SyncStateRec)
deriving DecidableEq

/-! ### Time buckets (`aggregation.service.ts` lines 28-32, 175-205, 564-580) -/

/-- The `TimeInterval` enum. -/
inductive TimeInterval
  | minute
  | hour
  | day
deriving DecidableEq, Repr

/-- Seconds per interval (UTC bucketing). -/
def intervalSeconds : TimeInterval → ℕ
  | .minute => 60
  | .hour => 3600
  | .day => 86400

/-- The `roundTimestamp(date, interval)` (source lines 175-191): truncate the
    timestamp to the start of its period. -/
def roundTimestamp (date : ℕ) (interval : TimeInterval) : ℕ :=
  date - date % intervalSeconds interval

/-- The `getPreviousPeriod(date, interval)` (source lines 564-580): step one
    period back. -/
def getPreviousPeriod (date : ℕ) (interval : TimeInterval) : ℕ :=
  date - intervalSeconds interval

/-! ### Small numeric helpers of the aggregation service -/

/-- The `abs(amount)` (aggregation source lines 155-158):
    `value < 0 ? -value : value` on the BigInt value. -/
def absAmount (value : ℤ) : ℤ :=
  if value < 0 then -value else value

/-- The `toDecimal(amount, decimals)` (aggregation source lines 163-170):
    `whole + remainder / divisor` with BigInt truncating division, idealized
    over exact rationals. -/
def toDecimal (amount : ℤ) (decimals : ℕ) : ℚ :=
  let divisor : ℤ := (10 : ℤ) ^ decimals
  ((amount.tdiv divisor : ℤ) : ℚ) + ((amount.tmod divisor : ℤ) : ℚ) / (divisor : ℚ)

/-! ### Price oracle (`aggregation.service.ts` lines 124-150 and 613-691) -/

/-- The `getNativePriceInUSD()` (source lines 124-150): read the configured
    stablecoin / wrapped-native pool and return the stablecoin-side price;
    0 when the pool id is unconfigured (empty string) or the pool is
    missing.  The trailing `|| ZERO_BD` maps a NaN parse to 0 and is the
    identity on numeric values. -/
def getNativePriceInUSD (cfg : Config) (db : DB) : ℚ :=
  if cfg.stablecoinWrappedNativePoolId = "" then 0
  else
    match lookupA db.pools cfg.stablecoinWrappedNativePoolId with
    | none => 0
    | some pool =>
      if cfg.stablecoinIsToken0 then pool.token0Price else pool.token1Price

/-- One iteration of the whitelist-pool loop of `findNativePerToken`
    (source lines 641-688).  The accumulator is
    `(largestLiquidityBTC, priceSoFar)`; both `currency0 == token` and
    `currency1 == token` branches are tried in order, as in the source. -/
def whitelistStep (db : DB) (tokenAddress : String) (minimumNativeLocked : ℤ)
    (acc : ℚ × ℚ) (poolAddress : String) : ℚ × ℚ :=
  match lookupA db.pools poolAddress with
  | none => acc
  | some pool =>
    if 0 < pool.liquidity then
      let acc1 :=
        if pool.currency0 = tokenAddress then
          match lookupA db.tokens pool.currency1 with
          | none => acc
          | some token1 =>
            let tvlDecimal := toDecimal pool.totalValueLockedToken1 token1.decimals
            let btcLocked := tvlDecimal * token1.derivedBTC
            if acc.1 < btcLocked ∧ (minimumNativeLocked : ℚ) < btcLocked then
              (btcLocked, pool.token1Price * token1.derivedBTC)
            else acc
        else acc
      if pool.currency1 = tokenAddress then
        match lookupA db.tokens pool.currency0 with
        | none => acc1
        | some token0 =>
          let tvlDecimal := toDecimal pool.totalValueLockedToken0 token0.decimals
          let btcLocked := tvlDecimal * token0.derivedBTC
          if acc1.1 < btcLocked ∧ (minimumNativeLocked : ℚ) < btcLocked then
            (btcLocked, pool.token0Price * token0.derivedBTC)
          else acc1
      else acc1
    else acc

/-- The `findNativePerToken(token, wrappedNativeAddress, stablecoinAddresses,
    minimumNativeLocked)` (source lines 613-691).  `db` and `cfg` stand for
    the injected models and config the method reads.  `!btcPrice` is the
    zero test on the rational model. -/
def findNativePerToken (db : DB) (token : Token) (wrappedNativeAddress : String)
    (stablecoinAddresses : List String) (minimumNativeLocked : ℤ)
    (cfg : Config) : ℚ :=
  if token.address = wrappedNativeAddress ∨ token.address = zeroAddress then 1
  else if token.address ∈ stablecoinAddresses then
    let btcPrice := getNativePriceInUSD cfg db
    if btcPrice = 0 then 1 else 1 / btcPrice
  else
    (token.whitelistPools.foldl
      (whitelistStep db token.address minimumNativeLocked) (0, 0)).2

/-! ### Token metadata (`aggregation.service.ts` lines 80-119) -/

/-- The `fetchTokenMetadata(tokenAddress)` (source lines 80-119): the zero
    address and the wrapped-native address short-circuit to the ETH triple;
    otherwise the chain is consulted (`Env.metadata` already folds the
    catch-defaults `(18, "UNKNOWN", "Unknown Token")`). -/
def fetchTokenMetadata (cfg : Config) (env : Env) (tokenAddress : String) :
    ℕ × String × String :=
  if tokenAddress = zeroAddress ∨ tokenAddress = cfg.wrappedNativeAddress then
    (18, "ETH", "Ethereum")
  else env.metadata tokenAddress

/-- A `Token` row freshly created by `updateCurrentRecord`
    (source lines 279-293) from fetched metadata. -/
def newTokenRecord (tokenAddress : String) (md : ℕ × String × String) : Token :=
  { address := tokenAddress
    symbol := md.2.1
    name := md.2.2
    decimals := md.1
    volume := 0
    volumeUSD := 0
    untrackedVolumeUSD := 0
    feesUSD := 0
    totalValueLocked := 0
    totalValueLockedUSD := 0
    derivedBTC := 0
    txCount := 0
    whitelistPools := [] }

/-- The `$setOnInsert` defaults of `processTokenWhitelistUpdate`
    (source lines 239-252): a default token whose whitelist holds the one
    pool added by the accompanying `$addToSet`. -/
def whitelistInsertToken (tokenAddress poolId : String) : Token :=
  { address := tokenAddress
    symbol := "UNKNOWN"
    name := "Unknown Token"
    decimals := 18
    volume := 0
    volumeUSD := 0
    untrackedVolumeUSD := 0
    feesUSD := 0
    totalValueLocked := 0
    totalValueLockedUSD := 0
    derivedBTC := 0
    txCount := 0
    whitelistPools := [poolId] }

/-- The `processTokenWhitelistUpdate({tokenAddress, poolId})`
    (source lines 230-261): atomic upsert; `$addToSet` appends the pool id
    if not already present. -/
def processTokenWhitelistUpdate (db : DB) (tokenAddress poolId : String) : DB :=
  match lookupA db.tokens tokenAddress with
  | some t =>
    let t' := { t with whitelistPools :=
      if poolId ∈ t.whitelistPools then t.whitelistPools
      else t.whitelistPools ++ [poolId] }
    { db with tokens := updateA db.tokens tokenAddress t' }
  | none =>
    { db with tokens :=
        insertA db.tokens tokenAddress (whitelistInsertToken tokenAddress poolId) }

/-! ### Candle upsert+fold (`aggregation.service.ts` lines 401-477) -/

/-- The update applied to an existing `status=current` candle row
    (source lines 422-456).  The `open`/`low` branches test the stored
    string against the literal `"0"`; all fields written here go through
    `toFixed(6)`, so the flags become false. -/
def foldCandle (c : Candle) (volumeDelta : ℤ)
    (volumeUSDDelta feesDelta currentPrice : ℚ)
    (totalValueLocked : ℤ) (totalValueLockedUSD : ℚ) : Candle :=
  { status := c.status
    volume := c.volume + volumeDelta
    volumeUSD := c.volumeUSD + volumeUSDDelta
    untrackedVolumeUSD := c.untrackedVolumeUSD + volumeUSDDelta
    feesUSD := c.feesUSD + feesDelta
    totalValueLocked := totalValueLocked
    totalValueLockedUSD := totalValueLockedUSD
    priceUSD := currentPrice
    open_ := if c.openIsZeroStr then currentPrice else c.open_
    openIsZeroStr := false
    high := max c.high currentPrice
    low := if c.lowIsZeroStr then currentPrice else min c.low currentPrice
    lowIsZeroStr := false
    close := currentPrice
    txCount := c.txCount + 1 }

/-- The candle row created when no current row exists
    (source lines 459-475). -/
def newCandle (volumeDelta : ℤ) (volumeUSDDelta feesDelta currentPrice : ℚ)
    (totalValueLocked : ℤ) (totalValueLockedUSD : ℚ) : Candle :=
  { status := .current
    volume := volumeDelta
    volumeUSD := volumeUSDDelta
    untrackedVolumeUSD := volumeUSDDelta
    feesUSD := feesDelta
    totalValueLocked := totalValueLocked
    totalValueLockedUSD := totalValueLockedUSD
    priceUSD := currentPrice
    open_ := currentPrice
    openIsZeroStr := false
    high := currentPrice
    low := currentPrice
    lowIsZeroStr := false
    close := currentPrice
    txCount := 1 }

/-- The `updateOrCreateCurrentRecord` (source lines 401-477) on one candle
    collection.  `findOne({tokenAddress, date, status: current})` misses a
    finalized row at the same key, so the subsequent `create` hits the
    unique `(tokenAddress, date)` index and raises the duplicate-key error
    (`Except.error`), leaving the collection unchanged. -/
def updateOrCreateCurrentRecord (m : CandleMap) (tokenAddress : String)
    (date : ℕ) (volumeDelta : ℤ) (volumeUSDDelta feesDelta currentPrice : ℚ)
    (totalValueLocked : ℤ) (totalValueLockedUSD : ℚ) :
    Except Unit CandleMap :=
  match lookupA m (tokenAddress, date) with
  | some c =>
    if c.status = .current then
      .ok (updateA m (tokenAddress, date)
        (foldCandle c volumeDelta volumeUSDDelta feesDelta currentPrice
          totalValueLocked totalValueLockedUSD))
    else .error ()
  | none =>
    .ok (insertA m (tokenAddress, date)
      (newCandle volumeDelta volumeUSDDelta feesDelta currentPrice
        totalValueLocked totalValueLockedUSD))

/-- Resolve an `Except` write result: keep the old collection on error. -/
def candleResult (old : CandleMap) : Except Unit CandleMap → CandleMap
  | .ok m => m
  | .error _ => old

/-- Whether a candle write failed. -/
def candleFailed : Except Unit CandleMap → Bool
  | .ok _ => false
  | .error _ => true

/-! ### Per-token aggregation (`aggregation.service.ts` lines 211-396) -/

/-- The `updateCurrentRecord(swap, tokenAddress, isToken0)`
    (source lines 266-396).  Steps, in program order:
    get-or-create the token row; patch metadata while `symbol == "UNKNOWN"`;
    compute `absAmount`, `amountUSD = 0`, `feesUSD = amountUSD * fee/10000`,
    `newTVL = 0`, `newTVLUSD = 0` and `derivedBTC`; apply the cumulative
    token update; then the three candle upserts (`Promise.all`: every write
    runs, a duplicate-key rejection is reported after all are applied).
    Returns the new database and whether a candle write rejected. -/
def updateCurrentRecord (cfg : Config) (env : Env) (db : DB) (swap : SwapRec)
    (tokenAddress : String) (isToken0 : Bool) : DB × Bool :=
  let dbTok :=
    match lookupA db.tokens tokenAddress with
    | some t => (db, t)
    | none =>
      let t := newTokenRecord tokenAddress (fetchTokenMetadata cfg env tokenAddress)
      ({ db with tokens := insertA db.tokens tokenAddress t }, t)
  let db1 := dbTok.1
  let token0 := dbTok.2
  let dbTok2 :=
    if token0.symbol = "UNKNOWN" then
      let md := fetchTokenMetadata cfg env tokenAddress
      let t' := { token0 with decimals := md.1, symbol := md.2.1, name := md.2.2 }
      ({ db1 with tokens := updateA db1.tokens tokenAddress t' }, t')
    else (db1, token0)
  let db2 := dbTok2.1
  let token := dbTok2.2
  let amount := if isToken0 then swap.amount0 else swap.amount1
  let absAmountBigInt := absAmount amount
  let amountUSD : ℚ := 0
  let feePercentage : ℚ := (swap.fee : ℚ) / 10000
  let feesUSD : ℚ := amountUSD * feePercentage
  let newTVL : ℤ := 0
  let newTVLUSD : ℚ := 0
  let derivedBTC :=
    findNativePerToken db2 token cfg.wrappedNativeAddress cfg.stablecoinAddresses 0 cfg
  let tokenUpdated :=
    { token with
      txCount := token.txCount + 1
      volume := token.volume + absAmountBigInt
      volumeUSD := token.volumeUSD + amountUSD
      untrackedVolumeUSD := token.untrackedVolumeUSD + amountUSD
      feesUSD := token.feesUSD + feesUSD
      derivedBTC := derivedBTC }
  let db3 := { db2 with tokens := updateA db2.tokens tokenAddress tokenUpdated }
  let minuteWrite := updateOrCreateCurrentRecord db3.minuteCandles tokenAddress
    (roundTimestamp swap.blockTimestamp .minute) absAmountBigInt amountUSD feesUSD
    derivedBTC newTVL newTVLUSD
  let hourWrite := updateOrCreateCurrentRecord db3.hourCandles tokenAddress
    (roundTimestamp swap.blockTimestamp .hour) absAmountBigInt amountUSD feesUSD
    derivedBTC newTVL newTVLUSD
  let dayWrite := updateOrCreateCurrentRecord db3.dayCandles tokenAddress
    (roundTimestamp swap.blockTimestamp .day) absAmountBigInt amountUSD feesUSD
    derivedBTC newTVL newTVLUSD
  let db4 := { db3 with
    minuteCandles := candleResult db3.minuteCandles minuteWrite
    hourCandles := candleResult db3.hourCandles hourWrite
    dayCandles := candleResult db3.dayCandles dayWrite }
  (db4, candleFailed minuteWrite || candleFailed hourWrite || candleFailed dayWrite)

/-- Log message of `processSwapEvent`'s catch (source line 222). -/
def msgAggError : LogEntry := ⟨.error, "Error handling swap event for aggregation"⟩

/-- The `processSwapEvent(swap)` (source lines 211-224): update both tokens in
    order; the catch swallows any rejection, logs it at error level, and —
    because the two updates are awaited inside one `try` — skips the
    token1 update when the token0 update rejected. -/
def processSwapEvent (cfg : Config) (env : Env) (db : DB) (swap : SwapRec) :
    DB × List LogEntry :=
  let r0 := updateCurrentRecord cfg env db swap swap.token0Address true
  if r0.2 then (r0.1, [msgAggError])
  else
    let r1 := updateCurrentRecord cfg env r0.1 swap swap.token1Address false
    if r1.2 then (r1.1, [msgAggError]) else (r1.1, [])

/-! ### Event handlers (`swap-events.service.ts` lines 400-643, 709-791) -/

/-- The `fetchTokenDecimals(tokenAddress)` (source lines 715-758): the zero
    address is 18; otherwise the Token collection is consulted, then the
    chain (`Env.decimals` already folds the catch-default 18).  The
    in-memory cache layer is a pass-through on first access and is elided. -/
def fetchTokenDecimals (env : Env) (db : DB) (tokenAddress : String) : ℕ :=
  if tokenAddress = zeroAddress then 18
  else
    match lookupA db.tokens tokenAddress with
    | some t => t.decimals
    | none => env.decimals tokenAddress

/-- The `updateTokenWhitelists(poolId, currency0, currency1)`
    (source lines 763-776): if a currency is whitelisted, add the pool to
    the OTHER currency's whitelist (via `processTokenWhitelistUpdate`). -/
def updateTokenWhitelists (cfg : Config) (db : DB)
    (poolId currency0 currency1 : String) : DB :=
  let db1 :=
    if currency0.toLower ∈ cfg.whitelistTokens then
      processTokenWhitelistUpdate db currency1 poolId
    else db
  if currency1.toLower ∈ cfg.whitelistTokens then
    processTokenWhitelistUpdate db1 currency0 poolId
  else db1

/-- Decoded `Initialize` event plus the block timestamp the handler fetches. -/
structure InitData where
  id : String
  currency0 : String
  currency1 : String
  fee : ℕ
  tickSpacing : ℤ
  hooks : String
  sqrtPriceX96 : ℕ
  tick : ℤ
  transactionHash : String
  blockNumber : ℕ
  blockTimestamp : ℕ
deriving DecidableEq, Repr

/-- Decoded `Swap` event plus the block timestamp the handler fetches. -/
structure SwapData where
  poolId : String
  sender : String
  amount0 : ℤ
  amount1 : ℤ
  sqrtPriceX96 : ℕ
  liquidity : ℤ
  tick : ℤ
  fee : ℕ
  transactionHash : String
  blockNumber : ℕ
  logIndex : ℕ
  blockTimestamp : ℕ
deriving DecidableEq, Repr

/-- Decoded `ModifyLiquidity` event. -/
structure MLData where
  poolId : String
  sender : String
  tickLower : ℤ
  tickUpper : ℤ
  liquidityDelta : ℤ
  salt : String
  transactionHash : String
  blockNumber : ℕ
deriving DecidableEq, Repr

/-- The `handleInitializeEvent(event)` (source lines 400-449): fetch decimals,
    compute prices, `create` the Pool row (schema defaults fill
    `liquidity`/TVL with 0), then update whitelists.  A duplicate `poolId`
    makes `create` raise the duplicate-key error, which the catch turns into
    a warning with no state change. -/
def handleInitializeEvent (cfg : Config) (env : Env) (db : DB) (ev : InitData) :
    DB × List LogEntry :=
  let d0 := fetchTokenDecimals env db ev.currency0
  let d1 := fetchTokenDecimals env db ev.currency1
  let prices := sqrtPriceX96ToTokenPrices ev.sqrtPriceX96 d0 d1
  match lookupA db.pools ev.id with
  | some _ => (db, [⟨.warn, "Duplicate pool initialization"⟩])
  | none =>
    let pool : Pool :=
      { poolId := ev.id
        currency0 := ev.currency0
        currency1 := ev.currency1
        fee := ev.fee
        tickSpacing := ev.tickSpacing
        hooks := ev.hooks
        sqrtPriceX96 := ev.sqrtPriceX96
        tick := ev.tick
        blockNumber := ev.blockNumber
        blockTimestamp := ev.blockTimestamp
        transactionHash := ev.transactionHash
        token0Price := prices.token0Price
        token1Price := prices.token1Price
        liquidity := 0
        totalValueLockedToken0 := 0
        totalValueLockedToken1 := 0 }
    let db1 := { db with pools := insertA db.pools ev.id pool }
    let db2 := updateTokenWhitelists cfg db1 ev.id ev.currency0 ev.currency1
    (db2, [⟨.info, "New pool initialized"⟩])

/-- Warning of the missing-pool skip in `handleSwapEvent` (source line 499). -/
def msgSwapPoolMissing : LogEntry :=
  ⟨.warn, "Pool not found for poolId. Skipping swap event."⟩

/-- Warning of the swallowed duplicate-key error (source line 583). -/
def msgDuplicateSwap : LogEntry := ⟨.warn, "Duplicate swap event"⟩

/-- Info log after a successful `SwapEvent.create` (source line 563). -/
def msgNewSwap : LogEntry := ⟨.info, "New swap event"⟩

/-- The Pool row as rewritten by `handleSwapEvent` before the guarded
    `SwapEvent.create` (source lines 506-538): new price/tick/liquidity and
    the TVL increments. -/
def poolAfterSwap (env : Env) (db : DB) (pool : Pool) (ev : SwapData) : Pool :=
  let d0 := fetchTokenDecimals env db pool.currency0
  let d1 := fetchTokenDecimals env db pool.currency1
  let prices := sqrtPriceX96ToTokenPrices ev.sqrtPriceX96 d0 d1
  { pool with
    sqrtPriceX96 := ev.sqrtPriceX96
    tick := ev.tick
    token0Price := prices.token0Price
    token1Price := prices.token1Price
    liquidity := ev.liquidity
    totalValueLockedToken0 := pool.totalValueLockedToken0 + ev.amount0
    totalValueLockedToken1 := pool.totalValueLockedToken1 + ev.amount1 }

/-- The SwapEvent row persisted by `handleSwapEvent` (source lines 540-559);
    the price fields recompute `sqrtPriceX96ToTokenPrices` on the same
    inputs the handler used. -/
def srecOf (env : Env) (db : DB) (pool : Pool) (ev : SwapData) : SwapRec :=
  let prices := sqrtPriceX96ToTokenPrices ev.sqrtPriceX96
    (fetchTokenDecimals env db pool.currency0)
    (fetchTokenDecimals env db pool.currency1)
  { poolAddress := ev.poolId
    token0Address := pool.currency0
    token1Address := pool.currency1
    transactionHash := ev.transactionHash
    blockNumber := ev.blockNumber
    blockTimestamp := ev.blockTimestamp
    sender := ev.sender
    recipient := ev.sender
    amount0 := ev.amount0
    amount1 := ev.amount1
    sqrtPriceX96 := ev.sqrtPriceX96
    liquidity := ev.liquidity
    tick := ev.tick
    fee := ev.fee
    token0Price := prices.token0Price
    token1Price := prices.token1Price
    logIndex := ev.logIndex
    amountUSD := 0 }

/-- The database state after the Pool rewrite and the `SwapEvent.create` of
    `handleSwapEvent` (source lines 506-562). -/
def dbAfterSwapInsert (env : Env) (db : DB) (pool : Pool) (ev : SwapData) : DB :=
  { db with
    pools := updateA db.pools ev.poolId (poolAfterSwap env db pool ev)
    swaps := insertA db.swaps (ev.transactionHash, ev.logIndex)
               (srecOf env db pool ev) }

/-- The `handleSwapEvent(data)` (source lines 481-588).  Program order:
    missing pool → warn and skip; otherwise update the Pool row (prices,
    tick, liquidity, and the TVL increments) BEFORE the guarded
    `SwapEvent.create`; a duplicate `(transactionHash, logIndex)` makes
    `create` raise the duplicate-key error, and the catch logs a warning —
    but the Pool write has already happened.  On success the handler runs
    the aggregation (which swallows its own errors) and advances SyncState
    to the event's block. -/
def handleSwapEvent (cfg : Config) (env : Env) (db : DB) (ev : SwapData) :
    DB × List LogEntry :=
  match lookupA db.pools ev.poolId with
  | none => (db, [msgSwapPoolMissing])
  | some pool =>
    let db1 := { db with pools := updateA db.pools ev.poolId (poolAfterSwap env db pool ev) }
    match lookupA db1.swaps (ev.transactionHash, ev.logIndex) with
    | some _ => (db1, [msgDuplicateSwap])
    | none =>
      let agg := processSwapEvent cfg env (dbAfterSwapInsert env db pool ev)
                   (srecOf env db pool ev)
      let newSync := modifyA agg.1.syncStates cfg.poolManagerAddress (fun s =>
        { s with lastSyncedBlock := (ev.blockNumber : ℤ),
                 currentBlock := (ev.blockNumber : ℤ) })
      let db4 := { agg.1 with syncStates := newSync }
      (db4, msgNewSwap :: agg.2)

/-- Warning of the missing-pool skip in `handleModifyLiquidityEvent`
    (source line 605). -/
def msgMLPoolMissing : LogEntry :=
  ⟨.warn, "Pool not found for poolId. Skipping ModifyLiquidity event."⟩

/-- The `handleModifyLiquidityEvent(data)` (source lines 590-643): missing pool
    → warn and skip; otherwise `liquidity += liquidityDelta` and TVL
    increments computed by the external liquidity math. -/
def handleModifyLiquidityEvent (lm : LiquidityMath) (db : DB) (ev : MLData) :
    DB × List LogEntry :=
  match lookupA db.pools ev.poolId with
  | none => (db, [msgMLPoolMissing])
  | some pool =>
    let newLiquidity := pool.liquidity + ev.liquidityDelta
    let amount0 := lm.getAmount0 ev.tickLower ev.tickUpper pool.tick
      ev.liquidityDelta pool.sqrtPriceX96
    let amount1 := lm.getAmount1 ev.tickLower ev.tickUpper pool.tick
      ev.liquidityDelta pool.sqrtPriceX96
    let pool' := { pool with
      liquidity := newLiquidity
      totalValueLockedToken0 := pool.totalValueLockedToken0 + amount0
      totalValueLockedToken1 := pool.totalValueLockedToken1 + amount1 }
    ({ db with pools := updateA db.pools ev.poolId pool' }, [⟨.info, "Updated pool"⟩])

/-! ### Finalization (`aggregation.service.ts` lines 482-559) -/

/-- The `updateMany({date: previousPeriodDate, status: current},
    {$set: {status: finalized}})` write (source lines 522-530): flip every
    current row of the bucket to finalized; rows already finalized (or of
    other buckets) are untouched. -/
def finalizeCandles (m : CandleMap) (bucket : ℕ) : CandleMap :=
  m.map (fun kv =>
    if kv.1.2 = bucket ∧ kv.2.status = .current then
      (kv.1, { kv.2 with status := RecordStatus.finalized })
    else kv)

/-- The `finalizeRecords(interval)` at wall-clock instant `now`
    (source lines 506-559): finalize the previous period's bucket.  The
    `candle.finalized` bus emissions carry snapshots of the promoted rows
    and do not touch the database. -/
def finalizeRecords (db : DB) (interval : TimeInterval) (now : ℕ) :
    DB × List LogEntry :=
  let previousPeriodDate := roundTimestamp (getPreviousPeriod now interval) interval
  let db' :=
    match interval with
    | .minute => { db with minuteCandles := finalizeCandles db.minuteCandles previousPeriodDate }
    | .hour => { db with hourCandles := finalizeCandles db.hourCandles previousPeriodDate }
    | .day => { db with dayCandles := finalizeCandles db.dayCandles previousPeriodDate }
  (db', [⟨.info, "Finalized records"⟩])

/-! ### The operations that can touch the store -/

/-- One decoded log, dispatched by topic0 signature. -/
inductive EventData
  | initEv (ev : InitData)
  | swapEv (ev : SwapData)
  | mlEv (ev : MLData)
deriving DecidableEq, Repr

/-- Dispatch of one decoded log to its handler
    (`syncBatch` lines 241-293 / `processQueue` lines 358-365). -/
def dispatchEvent (cfg : Config) (env : Env) (lm : LiquidityMath) (db : DB) :
    EventData → DB × List LogEntry
  | .initEv ev => handleInitializeEvent cfg env db ev
  | .swapEv ev => handleSwapEvent cfg env db ev
  | .mlEv ev => handleModifyLiquidityEvent lm db ev

/-- Every operation that writes to the store: the three event handlers and
    the three period finalizers. -/
inductive Op
  | event (ev : EventData)
  | finalize (interval : TimeInterval) (now : ℕ)
deriving DecidableEq, Repr

/-- Apply one operation. -/
def applyOp (cfg : Config) (env : Env) (lm : LiquidityMath) (db : DB) :
    Op → DB × List LogEntry
  | .event ev => dispatchEvent cfg env lm db ev
  | .finalize interval now => finalizeRecords db interval now

/-! ### The orchestrator loops (`swap-events.service.ts` lines 135-398) -/

/-- An entry of a fetched log batch or of the live queue.  `good` carries a
    decoded event whose handling completes; `fails code` models a log whose
    handling is rejected by the environment (database or RPC failure)
    with the given error code, before any effect is applied. -/
inductive BatchItem
  | good (ev : EventData)
  | fails (code : ℕ)
deriving DecidableEq, Repr

/-- Log of the backfill loop's catch for a non-duplicate error
    (source line 299). -/
def msgBatchError : LogEntry := ⟨.error, "Error processing event in batch"⟩

/-- Log of the live queue's catch (source line 367). -/
def msgQueueError : LogEntry := ⟨.error, "Error processing event from queue"⟩

/-- The per-log loop of `syncBatch` (source lines 226-303): each log is
    handled inside a `try`; a duplicate-key error (`code 11000`) is skipped
    with `continue`, ANY other error is logged and re-thrown, aborting the
    loop.  Returns the database reached, the logs, and `some code` when the
    loop aborted. -/
def runSyncBatch (cfg : Config) (env : Env) (lm : LiquidityMath) (db : DB) :
    List BatchItem → DB × List LogEntry × Option ℕ
  | [] => (db, [], none)
  | .good ev :: rest =>
    let r := dispatchEvent cfg env lm db ev
    let rec' := runSyncBatch cfg env lm r.1 rest
    (rec'.1, r.2 ++ rec'.2.1, rec'.2.2)
  | .fails code :: rest =>
    if code = 11000 then runSyncBatch cfg env lm db rest
    else (db, [msgBatchError], some code)

/-- The SyncState commit after one successfully processed batch
    (source lines 183-191): `lastSyncedBlock = toBlock`, `currentBlock`
    refreshed, and `isInitialSyncComplete: toBlock >= currentBlock`. -/
def commitAfterBatch (currentBlock toBlock : ℤ) (s : SyncStateRec) :
    SyncStateRec :=
  { s with lastSyncedBlock := toBlock,
           currentBlock := currentBlock,
           isInitialSyncComplete := decide (currentBlock ≤ toBlock) }

/-- One backfill iteration (`syncHistoricalEvents` loop body, source lines
    171-194): run the batch, and — only if it did not abort — commit
    `lastSyncedBlock = toBlock`, `currentBlock`, and
    `isInitialSyncComplete = toBlock >= currentBlock` to SyncState.  When
    the batch aborts, `syncHistoricalEvents`' catch re-throws and nothing is
    committed.  The boolean reports whether the loop may continue. -/
def syncStep (cfg : Config) (env : Env) (lm : LiquidityMath) (db : DB)
    (items : List BatchItem) (toBlock currentBlock : ℤ) : DB × Bool :=
  let r := runSyncBatch cfg env lm db items
  match r.2.2 with
  | none =>
    let newSync := modifyA r.1.syncStates cfg.poolManagerAddress
      (commitAfterBatch currentBlock toBlock)
    ({ r.1 with syncStates := newSync }, true)
  | some _ => (r.1, false)

/-- The `processQueue` drain of the live path (source lines 324-372): one
    consumer takes queue entries in order; each is handled inside a `try`
    whose catch only logs — every error is swallowed and the loop
    continues with the next entry.  (The `isSyncing` skip and the
    unparseable-log skip drop entries the same way and are subsumed by
    `fails`.) -/
def processQueue (cfg : Config) (env : Env) (lm : LiquidityMath) (db : DB) :
    List BatchItem → DB × List LogEntry
  | [] => (db, [])
  | .good ev :: rest =>
    let r := dispatchEvent cfg env lm db ev
    let rec' := processQueue cfg env lm r.1 rest
    (rec'.1, r.2 ++ rec'.2)
  | .fails _ :: rest =>
    let rec' := processQueue cfg env lm db rest
    (rec'.1, msgQueueError :: rec'.2)

/-- The batch plan of `syncHistoricalEvents` (source lines 168-194):
    starting at `fromBlock`, emit windows
    `(fromBlock, min (fromBlock + batchSize - 1) currentBlock)` until the
    head is passed.  The loop terminates only for `batchSize ≥ 1`, which the
    hypothesis records (the configured default is 1000). -/
def syncBatches (fromBlock currentBlock : ℤ) (batchSize : ℕ)
    (hbs : 1 ≤ batchSize) : List (ℤ × ℤ) :=
  if h : fromBlock ≤ currentBlock then
    let toBlock := min (fromBlock + batchSize - 1) currentBlock
    (fromBlock, toBlock) :: syncBatches (toBlock + 1) currentBlock batchSize hbs
  else []
termination_by (currentBlock + 1 - fromBlock).toNat
decreasing_by
  omega

/-- Batches are consecutive: each window starts one block after the
    previous window's end. -/
def consecutiveBatches : List (ℤ × ℤ) → Prop
  | [] => True
  | [_] => True
  | p :: q :: rest => q.1 = p.2 + 1 ∧ consecutiveBatches (q :: rest)

/-! ### Observables for the aggregation invariants -/

/-- Cumulative volume recorded for a token address (0 when the row is
    absent, matching the creation default). -/
def tokenVolume (db : DB) (a : String) : ℤ :=
  match lookupA db.tokens a with
  | some t => t.volume
  | none => 0

/-- Transaction count recorded for a token address. -/
def tokenTxCount (db : DB) (a : String) : ℕ :=
  match lookupA db.tokens a with
  | some t => t.txCount
  | none => 0

/-- Whether a swap event touches the given token address. -/
def touches (a : String) (s : SwapRec) : Bool :=
  s.token0Address == a || s.token1Address == a

/-- The amount a swap contributes to a token it touches: `|amount0|` when
    the token is token0, else `|amount1|`. -/
def eventAmountFor (a : String) (s : SwapRec) : ℤ :=
  if s.token0Address = a then absAmount s.amount0 else absAmount s.amount1

/-- Fold a list of persisted swap events through the aggregation
    (`processSwapEvent` applied to each, in order). -/
def applySwaps (cfg : Config) (env : Env) (db : DB) : List SwapRec → DB
  | [] => db
  | s :: rest => applySwaps cfg env (processSwapEvent cfg env db s).1 rest

/-- Every row of a candle collection is still `current`. -/
def noFinalized (m : CandleMap) : Prop :=
  ∀ kv ∈ m, kv.2.status = RecordStatus.current

instance (m : CandleMap) : Decidable (noFinalized m) := by
  unfold noFinalized CandleMap
  infer_instance

/-- No candle collection of the database holds a finalized row. -/
def dbNoFinalized (db : DB) : Prop :=
  noFinalized db.minuteCandles ∧ noFinalized db.hourCandles ∧
    noFinalized db.dayCandles

instance (db : DB) : Decidable (dbNoFinalized db) := by
  unfold dbNoFinalized; infer_instance

/-! ### Concrete fixtures used by witnesses and counterexamples -/

/-- A minimal configuration fixture. -/
def cfg0 : Config :=
  { poolManagerAddress := "pm"
    startingBlock := 0
    syncBatchSize := 1000
    wrappedNativeAddress := "0xweth"
    stablecoinWrappedNativePoolId := ""
    stablecoinIsToken0 := true
    stablecoinAddresses := ["0xusdc"]
    whitelistTokens := [] }

/-- A chain environment fixture: every ERC-20 read resolves to defaults. -/
def env0 : Env := ⟨fun _ => 18, fun _ => (18, "TKN", "Token")⟩

/-- Liquidity-math fixture (zero deltas). -/
def lm0 : LiquidityMath := ⟨fun _ _ _ _ _ => 0, fun _ _ _ _ _ => 0⟩

/-- The empty database. -/
def emptyDB : DB := ⟨[], [], [], [], [], [], []⟩

/-- Wrapped-native token fixture. -/
def wethToken : Token := newTokenRecord "0xweth" (18, "WETH", "Wrapped Ether")

/-- Stablecoin token fixture. -/
def usdcToken : Token := newTokenRecord "0xusdc" (6, "USDC", "USD Coin")

/-- A pool fixture with 5 units of TVL on each side. -/
def pool0 : Pool :=
  { poolId := "p"
    currency0 := "a"
    currency1 := "b"
    fee := 3000
    tickSpacing := 60
    hooks := "0x0"
    sqrtPriceX96 := 0
    tick := 0
    blockNumber := 1
    blockTimestamp := 0
    transactionHash := "tx0"
    token0Price := 0
    token1Price := 0
    liquidity := 0
    totalValueLockedToken0 := 5
    totalValueLockedToken1 := 5 }

/-- A persisted swap-event fixture keyed by `("tx", 0)`. -/
def srec0 : SwapRec :=
  { poolAddress := "p"
    token0Address := "a"
    token1Address := "b"
    transactionHash := "tx"
    blockNumber := 1
    blockTimestamp := 0
    sender := "s"
    recipient := "s"
    amount0 := 1
    amount1 := -2
    sqrtPriceX96 := 0
    liquidity := 7
    tick := 0
    logIndex := 0
    fee := 3000
    token0Price := 0
    token1Price := 0
    amountUSD := 0 }

/-- A sync-state fixture for the pool manager `"pm"`. -/
def sync0 : SyncStateRec := ⟨"pm", 0, 0, false⟩

/-- Database fixture holding `pool0`, the already-persisted `srec0`, and a
    sync-state row. -/
def db0 : DB :=
  { pools := [("p", pool0)]
    swaps := [(("tx", 0), srec0)]
    tokens := []
    minuteCandles := []
    hourCandles := []
    dayCandles := []
    syncStates := [("pm", sync0)] }

/-- The decoded Swap event matching `srec0` — re-delivering it against `db0`
    is a duplicate delivery. -/
def ev0 : SwapData :=
  { poolId := "p"
    sender := "s"
    amount0 := 1
    amount1 := -2
    sqrtPriceX96 := 0
    liquidity := 7
    tick := 0
    fee := 3000
    transactionHash := "tx"
    blockNumber := 1
    logIndex := 0
    blockTimestamp := 0 }

/-- A candle created by the aggregation fold with derived price 0: its
    stored `low` string is `"0.000000"` — numerically zero but not the
    literal `"0"`. -/
def cexCandle : Candle := newCandle 1 0 0 0 0 0

/-- Candle collection holding `cexCandle` for token `"t"`, bucket 0. -/
def cexMap : CandleMap := [(("t", 0), cexCandle)]

/-- A finalized candle row. -/
def finCandle : Candle := { newCandle 3 0 0 0 0 0 with status := RecordStatus.finalized }

/-- Database fixture whose minute collection holds a finalized row for
    token `"a"` at bucket 0. -/
def db5 : DB :=
  { pools := [("p", pool0)]
    swaps := []
    tokens := []
    minuteCandles := [(("a", 0), finCandle)]
    hourCandles := []
    dayCandles := []
    syncStates := [("pm", sync0)] }

/-- A fresh swap (timestamp 30 falls in minute bucket 0) whose token0 candle
    key collides with the finalized row of `db5`. -/
def ev5 : SwapData := { ev0 with transactionHash := "t5", blockTimestamp := 30 }

/-- Database fixture with no stored swaps (for the backfill-abort run). -/
def dbC8 : DB := { db0 with swaps := [] }

/-- A fresh, processable swap event for the backfill-abort run. -/
def evC8 : SwapData := { ev0 with transactionHash := "t8" }

/-- A swap referencing a pool id absent from `db0`. -/
def evC7 : SwapData := { ev0 with poolId := "zz" }

/-- A ModifyLiquidity event referencing a pool id absent from `db0`. -/
def mlC7 : MLData :=
  { poolId := "zz"
    sender := "s"
    tickLower := -60
    tickUpper := 60
    liquidityDelta := 1
    salt := "0"
    transactionHash := "tm"
    blockNumber := 2 }

/-! ## Association-list lemmas -/

lemma lookupA_insertA {α β : Type} [DecidableEq α] (m : List (α × β)) (a x : α)
    (b : β) : lookupA (insertA m a b) x = if a = x then some b else lookupA m x := by
  rfl

lemma lookupA_updateA_same {α β : Type} [DecidableEq α] (m : List (α × β))
    (a : α) (b : β) : lookupA (updateA m a b) a = (lookupA m a).map fun _ => b := by
  induction m with
  | nil => rfl
  | cons kv rest ih =>
    obtain ⟨k, v⟩ := kv
    by_cases h : k = a
    · simp [updateA, lookupA, h]
    · simp [updateA, lookupA, h, ih]

lemma lookupA_updateA_ne {α β : Type} [DecidableEq α] (m : List (α × β))
    (a x : α) (b : β) (h : x ≠ a) :
    lookupA (updateA m a b) x = lookupA m x := by
  induction m with
  | nil => rfl
  | cons kv rest ih =>
    obtain ⟨k, v⟩ := kv
    by_cases hk : k = a
    · subst hk
      have hkx : ¬ k = x := fun hh => h hh.symm
      simp [updateA, lookupA, hkx]
    · simp only [updateA, if_neg hk]
      by_cases hkx : k = x
      · simp [lookupA, hkx]
      · simp [lookupA, hkx, ih]

lemma lookupA_modifyA_same {α β : Type} [DecidableEq α] (m : List (α × β))
    (a : α) (f : β → β) : lookupA (modifyA m a f) a = (lookupA m a).map f := by
  induction m with
  | nil => rfl
  | cons kv rest ih =>
    obtain ⟨k, v⟩ := kv
    by_cases h : k = a
    · simp [modifyA, lookupA, h]
    · simp [modifyA, lookupA, h, ih]

lemma lookupA_modifyA_ne {α β : Type} [DecidableEq α] (m : List (α × β))
    (a x : α) (f : β → β) (h : x ≠ a) :
    lookupA (modifyA m a f) x = lookupA m x := by
  induction m with
  | nil => rfl
  | cons kv rest ih =>
    obtain ⟨k, v⟩ := kv
    by_cases hk : k = a
    · subst hk
      simp only [modifyA, if_pos rfl]
      have : ¬ k = x := fun hh => h (hh ▸ rfl)
      simp [lookupA, this]
    · simp only [modifyA, if_neg hk]
      by_cases hkx : k = x
      · simp [lookupA, hkx]
      · simp [lookupA, hkx, ih]

lemma mem_of_lookupA {α β : Type} [DecidableEq α] {m : List (α × β)} {a : α}
    {b : β} (h : lookupA m a = some b) : (a, b) ∈ m := by
  induction m with
  | nil => simp [lookupA] at h
  | cons kv rest ih =>
    obtain ⟨k, v⟩ := kv
    by_cases hk : k = a
    · subst hk
      simp [lookupA] at h
      simp [h]
    · simp only [lookupA, if_neg hk] at h
      exact List.mem_cons_of_mem _ (ih h)

lemma updateA_forall {α β : Type} [DecidableEq α] {m : List (α × β)} {a : α}
    {b : β} {P : β → Prop} (hm : ∀ kv ∈ m, P kv.2) (hb : P b) :
    ∀ kv ∈ updateA m a b, P kv.2 := by
  induction m with
  | nil => simp [updateA]
  | cons kv rest ih =>
    obtain ⟨k, v⟩ := kv
    by_cases hk : k = a
    · simp only [updateA, if_pos hk]
      intro x hx
      rcases List.mem_cons.mp hx with h | h
      · subst h; exact hb
      · exact hm x (List.mem_cons_of_mem _ h)
    · simp only [updateA, if_neg hk]
      intro x hx
      rcases List.mem_cons.mp hx with h | h
      · subst h; exact hm (k, v) (List.mem_cons_self _ _)
      · exact ih (fun y hy => hm y (List.mem_cons_of_mem _ hy)) x h

/-! ## C2/C10: price-function lemmas -/

lemma token1Price_pos (p d0 d1 : ℕ) (hp : 0 < p) :
    0 < (sqrtPriceX96ToTokenPrices p d0 d1).token1Price := by
  unfold sqrtPriceX96ToTokenPrices exponentToBigDecimal Q192
  have hpq : (0 : ℚ) < (p : ℚ) := by exact_mod_cast hp
  simp only [Nat.cast_mul]
  positivity

/-- Claim **C2**: for every `sqrtPriceX96` value `p > 0` and all token decimals,
    the two prices returned by `sqrtPriceX96ToTokenPrices` multiply to
    exactly 1 in the exact-rational model of the float arithmetic (hence
    certainly within the 1e-12 tolerance the specification allows). -/
theorem sqrtPrice_product_one (p d0 d1 : ℕ) (hp : 0 < p) :
    (sqrtPriceX96ToTokenPrices p d0 d1).token0Price *
      (sqrtPriceX96ToTokenPrices p d0 d1).token1Price = 1 := by
  have hne : (sqrtPriceX96ToTokenPrices p d0 d1).token1Price ≠ 0 :=
    ne_of_gt (token1Price_pos p d0 d1 hp)
  have h0 : (sqrtPriceX96ToTokenPrices p d0 d1).token0Price =
      safeDiv 1 (sqrtPriceX96ToTokenPrices p d0 d1).token1Price := rfl
  rw [h0, safeDiv, if_pos hne]
  exact one_div_mul_cancel hne

/-- Witness for C2 at the S1 literal `sqrtPriceX96 = 2^96`, `d0 = d1 = 18`. -/
theorem sqrtPrice_product_one_witness :
    0 < 79228162514264337593543950336 ∧
      (sqrtPriceX96ToTokenPrices 79228162514264337593543950336 18 18).token0Price *
        (sqrtPriceX96ToTokenPrices 79228162514264337593543950336 18 18).token1Price = 1 :=
  ⟨by norm_num, sqrtPrice_product_one 79228162514264337593543950336 18 18 (by norm_num)⟩

/-- Claim **C10**: `sqrtPriceX96ToTokenPrices` is a total function, and whenever
    the computed `price1` is zero the guarded division `safeDiv` makes it
    return `token0Price = 0` instead of failing. -/
theorem sqrtPrice_zero_guard (p d0 d1 : ℕ)
    (h : (sqrtPriceX96ToTokenPrices p d0 d1).token1Price = 0) :
    (sqrtPriceX96ToTokenPrices p d0 d1).token0Price = 0 := by
  have h0 : (sqrtPriceX96ToTokenPrices p d0 d1).token0Price =
      safeDiv 1 (sqrtPriceX96ToTokenPrices p d0 d1).token1Price := rfl
  rw [h0, h, safeDiv]
  simp

/-- Witness for C10 at `sqrtPriceX96 = 0`. -/
theorem sqrtPrice_zero_guard_witness :
    (sqrtPriceX96ToTokenPrices 0 18 18).token1Price = 0 ∧
      (sqrtPriceX96ToTokenPrices 0 18 18).token0Price = 0 :=
  ⟨by simp [sqrtPriceX96ToTokenPrices],
    sqrtPrice_zero_guard 0 18 18 (by simp [sqrtPriceX96ToTokenPrices])⟩

/-! ## C9: special cases of the derived price -/

/-- Claim **C9**: `findNativePerToken` returns 1 for the wrapped-native address and
    for the zero address; for a stablecoin (that is not one of those two) it
    returns `1 / nativePriceUSD()`, or 1 when `nativePriceUSD()` is 0. -/
theorem derived_native_special_cases (db : DB) (token : Token)
    (wrappedNativeAddress : String) (stablecoinAddresses : List String)
    (minimumNativeLocked : ℤ) (cfg : Config) :
    ((token.address = wrappedNativeAddress ∨ token.address = zeroAddress) →
      findNativePerToken db token wrappedNativeAddress stablecoinAddresses
        minimumNativeLocked cfg = 1) ∧
    (token.address ≠ wrappedNativeAddress → token.address ≠ zeroAddress →
      token.address ∈ stablecoinAddresses →
      findNativePerToken db token wrappedNativeAddress stablecoinAddresses
        minimumNativeLocked cfg =
        if getNativePriceInUSD cfg db = 0 then 1
        else 1 / getNativePriceInUSD cfg db) := by
  constructor
  · intro h
    unfold findNativePerToken
    rw [if_pos h]
  · intro h1 h2 h3
    unfold findNativePerToken
    rw [if_neg (by tauto), if_pos h3]

/-- Witness for C9: the wrapped-native fixture maps to 1, and the stablecoin
    fixture follows the `1 / nativePriceUSD()` rule. -/
theorem derived_native_special_cases_witness :
    (findNativePerToken emptyDB wethToken "0xweth" ["0xusdc"] 0 cfg0 = 1) ∧
    (findNativePerToken emptyDB usdcToken "0xweth" ["0xusdc"] 0 cfg0 =
      if getNativePriceInUSD cfg0 emptyDB = 0 then 1
      else 1 / getNativePriceInUSD cfg0 emptyDB) :=
  ⟨(derived_native_special_cases emptyDB wethToken "0xweth" ["0xusdc"] 0 cfg0).1
      (Or.inl (by decide)),
   (derived_native_special_cases emptyDB usdcToken "0xweth" ["0xusdc"] 0 cfg0).2
      (by decide) (by decide) (by decide)⟩

/-! ## C4: the candle upsert+fold -/

/-- Claim **C4 (amended)**: the candle fold of `updateOrCreateCurrentRecord`, fed
    as in `updateCurrentRecord` with `volumeDelta = |amount|` and
    `feesDelta = amountUSD * (fee / 10000)`.  With no current row, a row is
    created with OHLC all equal to the current derived price,
    `volume = |amount|`, `txCount = 1`, `status = current`.  With a current
    row, `volume += |amount|`, `feesUSD += amountUSD * (fee / 10000)`,
    `txCount += 1`, `high = max(high, price)`, `close = price`, while `low`
    and `open` follow the stored-string test of the source: `low` becomes
    `min(low, price)` UNLESS the stored low string is the literal `"0"`
    (then it becomes `price`), and `open` is kept UNLESS its stored string
    is the literal `"0"` — rows written by this code path always store
    `toFixed(6)` strings, never the literal `"0"`, as the final conjuncts
    record. -/
theorem candle_fold_spec (m : CandleMap) (tokenAddress : String) (date : ℕ)
    (amount : ℤ) (amountUSD price : ℚ) (fee : ℕ) (tvl : ℤ) (tvlUSD : ℚ) :
    (lookupA m (tokenAddress, date) = none →
      updateOrCreateCurrentRecord m tokenAddress date (absAmount amount)
          amountUSD (amountUSD * ((fee : ℚ) / 10000)) price tvl tvlUSD =
        .ok (insertA m (tokenAddress, date)
          (newCandle (absAmount amount) amountUSD
            (amountUSD * ((fee : ℚ) / 10000)) price tvl tvlUSD)) ∧
      (newCandle (absAmount amount) amountUSD (amountUSD * ((fee : ℚ) / 10000))
          price tvl tvlUSD).open_ = price ∧
      (newCandle (absAmount amount) amountUSD (amountUSD * ((fee : ℚ) / 10000))
          price tvl tvlUSD).high = price ∧
      (newCandle (absAmount amount) amountUSD (amountUSD * ((fee : ℚ) / 10000))
          price tvl tvlUSD).low = price ∧
      (newCandle (absAmount amount) amountUSD (amountUSD * ((fee : ℚ) / 10000))
          price tvl tvlUSD).close = price ∧
      (newCandle (absAmount amount) amountUSD (amountUSD * ((fee : ℚ) / 10000))
          price tvl tvlUSD).volume = absAmount amount ∧
      (newCandle (absAmount amount) amountUSD (amountUSD * ((fee : ℚ) / 10000))
          price tvl tvlUSD).txCount = 1 ∧
      (newCandle (absAmount amount) amountUSD (amountUSD * ((fee : ℚ) / 10000))
          price tvl tvlUSD).status = RecordStatus.current ∧
      (newCandle (absAmount amount) amountUSD (amountUSD * ((fee : ℚ) / 10000))
          price tvl tvlUSD).openIsZeroStr = false ∧
      (newCandle (absAmount amount) amountUSD (amountUSD * ((fee : ℚ) / 10000))
          price tvl tvlUSD).lowIsZeroStr = false) ∧
    (∀ c, lookupA m (tokenAddress, date) = some c → c.status = RecordStatus.current →
      updateOrCreateCurrentRecord m tokenAddress date (absAmount amount)
          amountUSD (amountUSD * ((fee : ℚ) / 10000)) price tvl tvlUSD =
        .ok (updateA m (tokenAddress, date)
          (foldCandle c (absAmount amount) amountUSD
            (amountUSD * ((fee : ℚ) / 10000)) price tvl tvlUSD)) ∧
      (foldCandle c (absAmount amount) amountUSD (amountUSD * ((fee : ℚ) / 10000))
          price tvl tvlUSD).volume = c.volume + absAmount amount ∧
      (foldCandle c (absAmount amount) amountUSD (amountUSD * ((fee : ℚ) / 10000))
          price tvl tvlUSD).feesUSD = c.feesUSD + amountUSD * ((fee : ℚ) / 10000) ∧
      (foldCandle c (absAmount amount) amountUSD (amountUSD * ((fee : ℚ) / 10000))
          price tvl tvlUSD).txCount = c.txCount + 1 ∧
      (foldCandle c (absAmount amount) amountUSD (amountUSD * ((fee : ℚ) / 10000))
          price tvl tvlUSD).high = max c.high price ∧
      (foldCandle c (absAmount amount) amountUSD (amountUSD * ((fee : ℚ) / 10000))
          price tvl tvlUSD).low =
        (if c.lowIsZeroStr then price else min c.low price) ∧
      (foldCandle c (absAmount amount) amountUSD (amountUSD * ((fee : ℚ) / 10000))
          price tvl tvlUSD).open_ =
        (if c.openIsZeroStr then price else c.open_) ∧
      (foldCandle c (absAmount amount) amountUSD (amountUSD * ((fee : ℚ) / 10000))
          price tvl tvlUSD).close = price ∧
      (foldCandle c (absAmount amount) amountUSD (amountUSD * ((fee : ℚ) / 10000))
          price tvl tvlUSD).openIsZeroStr = false ∧
      (foldCandle c (absAmount amount) amountUSD (amountUSD * ((fee : ℚ) / 10000))
          price tvl tvlUSD).lowIsZeroStr = false) := by
  constructor
  · intro h
    refine ⟨?_, rfl, rfl, rfl, rfl, rfl, rfl, rfl, rfl, rfl⟩
    unfold updateOrCreateCurrentRecord
    rw [h]
  · intro c hc hcur
    refine ⟨?_, rfl, rfl, rfl, rfl, rfl, rfl, rfl, rfl, rfl⟩
    unfold updateOrCreateCurrentRecord
    rw [hc]
    simp [hcur]

/-- Counterexample to C4 as stated: a candle created with derived price 0
    stores `low` as `"0.000000"` (numerically 0, not the literal `"0"`); a
    later fold with price 5 keeps `low = min(0, 5) = 0`, whereas the claim
    (`low = min(low, price)` only when `low > 0`, else `price`) requires
    `low = 5`. -/
theorem candle_low_zero_counterexample :
    cexCandle.low = 0 ∧ ¬ (0 : ℚ) > 0 ∧
    updateOrCreateCurrentRecord cexMap "t" 0 1 0 0 5 0 0 =
      .ok (updateA cexMap ("t", 0) (foldCandle cexCandle 1 0 0 5 0 0)) ∧
    (foldCandle cexCandle 1 0 0 5 0 0).low = 0 ∧ (0 : ℚ) ≠ 5 := by
  refine ⟨rfl, by norm_num, ?_, ?_, by norm_num⟩
  · unfold updateOrCreateCurrentRecord cexMap
    simp [lookupA, cexCandle, newCandle]
  · show (if cexCandle.lowIsZeroStr then (5 : ℚ) else min cexCandle.low 5) = 0
    simp [cexCandle, newCandle]

/-- Witness for the amended C4 at a concrete current row. -/
theorem candle_fold_spec_witness :
    (lookupA cexMap ("t", 0) = some cexCandle ∧
      cexCandle.status = RecordStatus.current) ∧
    updateOrCreateCurrentRecord cexMap "t" 0 (absAmount 1) 0
        (0 * (((3000 : ℕ) : ℚ) / 10000)) 5 0 0 =
      .ok (updateA cexMap ("t", 0)
        (foldCandle cexCandle (absAmount 1) 0 (0 * (((3000 : ℕ) : ℚ) / 10000)) 5 0 0)) :=
  ⟨⟨by simp [cexMap, lookupA], rfl⟩,
   ((candle_fold_spec cexMap "t" 0 1 0 5 3000 0 0).2 cexCandle
      (by simp [cexMap, lookupA]) rfl).1⟩

/-! ## C1: re-delivery of a duplicate Swap event -/

/-- Counterexample to C1 as stated: re-delivering the already-persisted swap
    `srec0` (amount0 = 1) against `db0` leaves the SwapEvent collection
    keyed as before, but the Pool collection is NOT unchanged — the pool
    TVL0 is incremented again from 5 to 6, because `handleSwapEvent` writes
    the Pool row before the duplicate-guarded `SwapEvent.create`. -/
theorem duplicate_swap_changes_pool_tvl :
    lookupA db0.swaps ("tx", 0) ≠ none ∧
    (lookupA (handleSwapEvent cfg0 env0 db0 ev0).1.pools "p").map
      Pool.totalValueLockedToken0 = some 6 ∧
    (lookupA db0.pools "p").map Pool.totalValueLockedToken0 = some 5 ∧
    (handleSwapEvent cfg0 env0 db0 ev0).1.pools ≠ db0.pools := by
  refine ⟨by simp [db0, lookupA], ?_, by simp [db0, lookupA, pool0], ?_⟩
  · simp [handleSwapEvent, db0, ev0, pool0, lookupA, updateA, poolAfterSwap]
  · intro heq
    have h6 : (lookupA (handleSwapEvent cfg0 env0 db0 ev0).1.pools "p").map
        Pool.totalValueLockedToken0 = some 6 := by
      simp [handleSwapEvent, db0, ev0, pool0, lookupA, updateA, poolAfterSwap]
    rw [heq] at h6
    simp [db0, lookupA, pool0] at h6

/-- Claim **C1 (amended)**: re-delivering a Swap whose `(transactionHash,
    logIndex)` already exists leaves the SwapEvent, Token, all Candle
    collections and SyncState unchanged, with the duplicate-key error
    logged (warning) and swallowed — but the Pool row has already been
    rewritten before the duplicate check: its `totalValueLockedToken0/1`
    are incremented again by the event's `amount0`/`amount1` (so the Pool
    collection is unchanged only when those deltas are zero); all other
    pools are untouched. -/
theorem duplicate_swap_redelivery_effects (cfg : Config) (env : Env) (db : DB)
    (ev : SwapData) (pool : Pool) (r : SwapRec)
    (hpool : lookupA db.pools ev.poolId = some pool)
    (hdup : lookupA db.swaps (ev.transactionHash, ev.logIndex) = some r) :
    (handleSwapEvent cfg env db ev).1.swaps = db.swaps ∧
    (handleSwapEvent cfg env db ev).1.tokens = db.tokens ∧
    (handleSwapEvent cfg env db ev).1.minuteCandles = db.minuteCandles ∧
    (handleSwapEvent cfg env db ev).1.hourCandles = db.hourCandles ∧
    (handleSwapEvent cfg env db ev).1.dayCandles = db.dayCandles ∧
    (handleSwapEvent cfg env db ev).1.syncStates = db.syncStates ∧
    (handleSwapEvent cfg env db ev).2 = [msgDuplicateSwap] ∧
    (lookupA (handleSwapEvent cfg env db ev).1.pools ev.poolId).map
      Pool.totalValueLockedToken0 =
        some (pool.totalValueLockedToken0 + ev.amount0) ∧
    (lookupA (handleSwapEvent cfg env db ev).1.pools ev.poolId).map
      Pool.totalValueLockedToken1 =
        some (pool.totalValueLockedToken1 + ev.amount1) ∧
    (∀ x, x ≠ ev.poolId →
      lookupA (handleSwapEvent cfg env db ev).1.pools x = lookupA db.pools x) := by
  have hrun : handleSwapEvent cfg env db ev =
      ({ db with pools := updateA db.pools ev.poolId (poolAfterSwap env db pool ev) },
        [msgDuplicateSwap]) := by
    unfold handleSwapEvent poolAfterSwap
    rw [hpool]
    dsimp only
    rw [hdup]
  rw [hrun]
  refine ⟨rfl, rfl, rfl, rfl, rfl, rfl, rfl, ?_, ?_, ?_⟩
  · show (lookupA (updateA db.pools ev.poolId (poolAfterSwap env db pool ev))
        ev.poolId).map Pool.totalValueLockedToken0 = _
    rw [lookupA_updateA_same, hpool]
    rfl
  · show (lookupA (updateA db.pools ev.poolId (poolAfterSwap env db pool ev))
        ev.poolId).map Pool.totalValueLockedToken1 = _
    rw [lookupA_updateA_same, hpool]
    rfl
  · intro x hx
    exact lookupA_updateA_ne _ _ _ _ hx

/-- Witness for the amended C1 at the concrete duplicate delivery
    `ev0` against `db0`. -/
theorem duplicate_swap_redelivery_effects_witness :
    (lookupA db0.pools ev0.poolId = some pool0 ∧
      lookupA db0.swaps (ev0.transactionHash, ev0.logIndex) = some srec0) ∧
    (handleSwapEvent cfg0 env0 db0 ev0).1.swaps = db0.swaps ∧
    (handleSwapEvent cfg0 env0 db0 ev0).2 = [msgDuplicateSwap] :=
  ⟨⟨by simp [db0, ev0, lookupA], by simp [db0, ev0, lookupA]⟩,
   (duplicate_swap_redelivery_effects cfg0 env0 db0 ev0 pool0 srec0
      (by simp [db0, ev0, lookupA]) (by simp [db0, ev0, lookupA])).1,
   (duplicate_swap_redelivery_effects cfg0 env0 db0 ev0 pool0 srec0
      (by simp [db0, ev0, lookupA]) (by simp [db0, ev0, lookupA])).2.2.2.2.2.2.1⟩

/-! ## C7: missing-pool events are skipped and SyncState still advances -/

/-- Claim **C7**: a Swap or ModifyLiquidity event whose `poolId` has no Pool row
    is skipped with a warning and leaves every collection unchanged; a
    backfill batch made of such events still completes without error and
    commits `lastSyncedBlock = toBlock` to SyncState. -/
theorem missing_pool_skip_spec (cfg : Config) (env : Env) (lm : LiquidityMath)
    (db : DB) (ev : SwapData) (mlev : MLData) (s : SyncStateRec)
    (toBlock currentBlock : ℤ)
    (hswap : lookupA db.pools ev.poolId = none)
    (hml : lookupA db.pools mlev.poolId = none)
    (hsync : lookupA db.syncStates cfg.poolManagerAddress = some s) :
    handleSwapEvent cfg env db ev = (db, [msgSwapPoolMissing]) ∧
    handleModifyLiquidityEvent lm db mlev = (db, [msgMLPoolMissing]) ∧
    (syncStep cfg env lm db [.good (.swapEv ev), .good (.mlEv mlev)]
        toBlock currentBlock).2 = true ∧
    (syncStep cfg env lm db [.good (.swapEv ev), .good (.mlEv mlev)]
        toBlock currentBlock).1.pools = db.pools ∧
    (syncStep cfg env lm db [.good (.swapEv ev), .good (.mlEv mlev)]
        toBlock currentBlock).1.swaps = db.swaps ∧
    (syncStep cfg env lm db [.good (.swapEv ev), .good (.mlEv mlev)]
        toBlock currentBlock).1.tokens = db.tokens ∧
    (syncStep cfg env lm db [.good (.swapEv ev), .good (.mlEv mlev)]
        toBlock currentBlock).1.minuteCandles = db.minuteCandles ∧
    (syncStep cfg env lm db [.good (.swapEv ev), .good (.mlEv mlev)]
        toBlock currentBlock).1.hourCandles = db.hourCandles ∧
    (syncStep cfg env lm db [.good (.swapEv ev), .good (.mlEv mlev)]
        toBlock currentBlock).1.dayCandles = db.dayCandles ∧
    lookupA (syncStep cfg env lm db [.good (.swapEv ev), .good (.mlEv mlev)]
        toBlock currentBlock).1.syncStates cfg.poolManagerAddress =
      some { s with lastSyncedBlock := toBlock, currentBlock := currentBlock,
                    isInitialSyncComplete := decide (currentBlock ≤ toBlock) } := by
  have h1 : handleSwapEvent cfg env db ev = (db, [msgSwapPoolMissing]) := by
    unfold handleSwapEvent
    rw [hswap]
  have h2 : handleModifyLiquidityEvent lm db mlev = (db, [msgMLPoolMissing]) := by
    unfold handleModifyLiquidityEvent
    rw [hml]
  have hbatch : runSyncBatch cfg env lm db [.good (.swapEv ev), .good (.mlEv mlev)] =
      (db, [msgSwapPoolMissing, msgMLPoolMissing], none) := by
    simp [runSyncBatch, dispatchEvent, h1, h2]
  have hstep : syncStep cfg env lm db [.good (.swapEv ev), .good (.mlEv mlev)]
      toBlock currentBlock =
      ({ db with
          syncStates := modifyA db.syncStates cfg.poolManagerAddress
                          (commitAfterBatch currentBlock toBlock) }, true) := by
    unfold syncStep
    rw [hbatch]
  refine ⟨h1, h2, by rw [hstep], by rw [hstep], by rw [hstep], by rw [hstep],
    by rw [hstep], by rw [hstep], by rw [hstep], ?_⟩
  rw [hstep]
  show lookupA (modifyA db.syncStates cfg.poolManagerAddress _)
      cfg.poolManagerAddress = _
  rw [lookupA_modifyA_same, hsync]
  rfl

/-- Witness for C7 at the concrete fixtures: `evC7`/`mlC7` reference the
    absent pool `"zz"` of `db0`. -/
theorem missing_pool_skip_spec_witness :
    (lookupA db0.pools evC7.poolId = none ∧ lookupA db0.pools mlC7.poolId = none ∧
      lookupA db0.syncStates cfg0.poolManagerAddress = some sync0) ∧
    handleSwapEvent cfg0 env0 db0 evC7 = (db0, [msgSwapPoolMissing]) ∧
    handleModifyLiquidityEvent lm0 db0 mlC7 = (db0, [msgMLPoolMissing]) :=
  ⟨⟨by simp [db0, evC7, ev0, lookupA], by simp [db0, mlC7, lookupA],
      by simp [db0, cfg0, lookupA]⟩,
   (missing_pool_skip_spec cfg0 env0 lm0 db0 evC7 mlC7 sync0 10 10
      (by simp [db0, evC7, ev0, lookupA]) (by simp [db0, mlC7, lookupA])
      (by simp [db0, cfg0, lookupA])).1,
   (missing_pool_skip_spec cfg0 env0 lm0 db0 evC7 mlC7 sync0 10 10
      (by simp [db0, evC7, ev0, lookupA]) (by simp [db0, mlC7, lookupA])
      (by simp [db0, cfg0, lookupA])).2.1⟩

/-! ## C8: error handling of the two processing loops -/

/-- Counterexample to C8 as stated: in the backfill loop a non-duplicate
    error (code 7) does NOT merely skip the failing event — the whole batch
    is aborted: the following valid Swap event is never applied (its
    `(transactionHash, logIndex)` stays absent) and the batch is not
    committed. -/
theorem backfill_halts_on_error :
    runSyncBatch cfg0 env0 lm0 dbC8 [.fails 7, .good (.swapEv evC8)] =
      (dbC8, [msgBatchError], some 7) ∧
    lookupA (runSyncBatch cfg0 env0 lm0 dbC8
        [.fails 7, .good (.swapEv evC8)]).1.swaps ("t8", 0) = none ∧
    (syncStep cfg0 env0 lm0 dbC8 [.fails 7, .good (.swapEv evC8)] 10 10).2 = false := by
  have h : runSyncBatch cfg0 env0 lm0 dbC8 [.fails 7, .good (.swapEv evC8)] =
      (dbC8, [msgBatchError], some 7) := by
    simp [runSyncBatch]
  refine ⟨h, ?_, ?_⟩
  · rw [h]
    simp [dbC8, db0, lookupA]
  · unfold syncStep
    rw [h]

/-- Claim **C8 (amended)**: the live queue logs any failing entry and continues
    with the rest of the queue; the backfill loop skips only duplicate-key
    errors (code 11000) — any other error is logged and re-thrown,
    aborting the batch (no subsequent event of the batch is processed, and
    no commit follows). -/
theorem error_handling_paths_spec (cfg : Config) (env : Env) (lm : LiquidityMath)
    (db : DB) (code : ℕ) (rest : List BatchItem) :
    (processQueue cfg env lm db (.fails code :: rest) =
      ((processQueue cfg env lm db rest).1,
        msgQueueError :: (processQueue cfg env lm db rest).2)) ∧
    (code ≠ 11000 →
      runSyncBatch cfg env lm db (.fails code :: rest) =
        (db, [msgBatchError], some code)) ∧
    (code = 11000 →
      runSyncBatch cfg env lm db (.fails code :: rest) =
        runSyncBatch cfg env lm db rest) := by
  refine ⟨rfl, ?_, ?_⟩
  · intro h
    simp [runSyncBatch, h]
  · intro h
    simp [runSyncBatch, h]

/-- Witness for the amended C8 at concrete inputs (code 7, empty rest). -/
theorem error_handling_paths_spec_witness :
    (7 : ℕ) ≠ 11000 ∧
    runSyncBatch cfg0 env0 lm0 emptyDB [.fails 7] =
      (emptyDB, [msgBatchError], some 7) ∧
    processQueue cfg0 env0 lm0 emptyDB [.fails 7] =
      ((processQueue cfg0 env0 lm0 emptyDB []).1,
        msgQueueError :: (processQueue cfg0 env0 lm0 emptyDB []).2) :=
  ⟨by decide,
   (error_handling_paths_spec cfg0 env0 lm0 emptyDB 7 []).2.1 (by decide),
   (error_handling_paths_spec cfg0 env0 lm0 emptyDB 7 []).1⟩

/-! ## C6: the backfill batch plan -/

lemma syncBatches_of_le {fromBlock currentBlock : ℤ} {bs : ℕ} (hbs : 1 ≤ bs)
    (h : fromBlock ≤ currentBlock) :
    syncBatches fromBlock currentBlock bs hbs =
      (fromBlock, min (fromBlock + bs - 1) currentBlock) ::
        syncBatches (min (fromBlock + bs - 1) currentBlock + 1) currentBlock bs hbs := by
  rw [syncBatches]
  simp [h]

lemma syncBatches_of_gt {fromBlock currentBlock : ℤ} {bs : ℕ} (hbs : 1 ≤ bs)
    (h : ¬ fromBlock ≤ currentBlock) :
    syncBatches fromBlock currentBlock bs hbs = [] := by
  rw [syncBatches]
  simp [h]

lemma syncBatches_mem_spec (fromBlock currentBlock : ℤ) (bs : ℕ) (hbs : 1 ≤ bs) :
    ∀ p ∈ syncBatches fromBlock currentBlock bs hbs,
      p.1 ≤ p.2 ∧ p.2 - p.1 + 1 ≤ (bs : ℤ) ∧ p.2 ≤ currentBlock := by
  induction fromBlock, currentBlock, bs, hbs using syncBatches.induct with
  | case1 f c b hb hfc toB ih =>
    intro p hp
    rw [syncBatches_of_le hb hfc] at hp
    rcases List.mem_cons.mp hp with hp | hp
    · subst hp
      dsimp only
      refine ⟨by omega, by omega, by omega⟩
    · exact ih p hp
  | case2 f c b hb hfc =>
    intro p hp
    rw [syncBatches_of_gt hb hfc] at hp
    simp at hp

lemma syncBatches_consecutive (fromBlock currentBlock : ℤ) (bs : ℕ)
    (hbs : 1 ≤ bs) :
    consecutiveBatches (syncBatches fromBlock currentBlock bs hbs) := by
  induction fromBlock, currentBlock, bs, hbs using syncBatches.induct with
  | case1 f c b hb hfc toB ih =>
    rw [syncBatches_of_le hb hfc]
    by_cases h2 : min (f + b - 1) c + 1 ≤ c
    · rw [syncBatches_of_le hb h2]
      refine ⟨rfl, ?_⟩
      rw [← syncBatches_of_le hb h2]
      exact ih
    · rw [syncBatches_of_gt hb h2]
      exact trivial
  | case2 f c b hb hfc =>
    rw [syncBatches_of_gt hb hfc]
    exact trivial

lemma syncBatches_getLast : ∀ (f c : ℤ) (b : ℕ) (hb : 1 ≤ b), f ≤ c →
    ((syncBatches f c b hb).getLast?).map Prod.snd = some c := by
  intro f c b hb
  induction f, c, b, hb using syncBatches.induct with
  | case1 f c b hb hfc toB ih =>
    intro _
    rw [syncBatches_of_le hb hfc]
    by_cases h2 : min (f + b - 1) c + 1 ≤ c
    · rw [syncBatches_of_le hb h2, List.getLast?_cons_cons,
        ← syncBatches_of_le hb h2]
      exact ih h2
    · rw [syncBatches_of_gt hb h2]
      simp only [List.getLast?_singleton, Option.map_some']
      have : min (f + b - 1) c = c := by omega
      rw [this]
  | case2 f c b hb hfc =>
    intro h
    exact absurd h hfc

/-- Claim **C6**: the backfill loop plans consecutive windows starting at
    `lastSyncedBlock + 1`, each of at most `syncBatchSize` blocks (default
    1000) and never past the head; after each batch the commit writes
    `lastSyncedBlock = toBlock` and sets `isInitialSyncComplete = true`
    exactly when the committed batch reaches the head; and when there is
    anything to sync the first window starts at `lastSyncedBlock + 1` and
    the last window ends at the head. -/
theorem backfill_batches_spec (lastSyncedBlock currentBlock : ℤ)
    (batchSize : ℕ) (hbs : 1 ≤ batchSize) (s : SyncStateRec) :
    defaultSyncBatchSize = 1000 ∧
    (∀ p ∈ syncBatches (lastSyncedBlock + 1) currentBlock batchSize hbs,
      p.1 ≤ p.2 ∧ p.2 - p.1 + 1 ≤ (batchSize : ℤ) ∧ p.2 ≤ currentBlock ∧
      (commitAfterBatch currentBlock p.2 s).lastSyncedBlock = p.2 ∧
      (commitAfterBatch currentBlock p.2 s).currentBlock = currentBlock ∧
      ((commitAfterBatch currentBlock p.2 s).isInitialSyncComplete = true ↔
        p.2 = currentBlock)) ∧
    consecutiveBatches (syncBatches (lastSyncedBlock + 1) currentBlock batchSize hbs) ∧
    (lastSyncedBlock + 1 ≤ currentBlock →
      ((syncBatches (lastSyncedBlock + 1) currentBlock batchSize hbs).head?).map
          Prod.fst = some (lastSyncedBlock + 1) ∧
      ((syncBatches (lastSyncedBlock + 1) currentBlock batchSize hbs).getLast?).map
          Prod.snd = some currentBlock) := by
  refine ⟨rfl, ?_, syncBatches_consecutive _ _ _ _,
    fun h => ⟨?_, syncBatches_getLast _ _ _ _ h⟩⟩
  · intro p hp
    obtain ⟨h1, h2, h3⟩ := syncBatches_mem_spec _ _ _ hbs p hp
    refine ⟨h1, h2, h3, rfl, rfl, ?_⟩
    show decide (currentBlock ≤ p.2) = true ↔ p.2 = currentBlock
    simp only [decide_eq_true_eq]
    omega
  · rw [syncBatches_of_le hbs h]
    rfl

/-- Witness for C6 at a concrete plan (resume after block 99, head 2500,
    batch size 1000). -/
theorem backfill_batches_spec_witness :
    (1 : ℕ) ≤ 1000 ∧
    consecutiveBatches (syncBatches (99 + 1) 2500 1000 (by norm_num)) ∧
    ((syncBatches (99 + 1) 2500 1000 (by norm_num)).getLast?).map Prod.snd =
      some 2500 :=
  ⟨by norm_num,
   (backfill_batches_spec 99 2500 1000 (by norm_num) sync0).2.2.1,
   ((backfill_batches_spec 99 2500 1000 (by norm_num) sync0).2.2.2
      (by norm_num)).2⟩

/-! ## C5: finalized candle rows are never mutated -/

lemma updateOrCreate_preserves_finalized {m : CandleMap} {k : String × ℕ}
    {c : Candle} (hk : lookupA m k = some c)
    (hfin : c.status = RecordStatus.finalized) (ta : String) (d : ℕ) (vd : ℤ)
    (vu fd pr : ℚ) (tvl : ℤ) (tvlU : ℚ) :
    lookupA (candleResult m
      (updateOrCreateCurrentRecord m ta d vd vu fd pr tvl tvlU)) k = some c := by
  unfold updateOrCreateCurrentRecord
  rcases hlk : lookupA m (ta, d) with _ | c'
  · have hne : k ≠ (ta, d) := by
      intro heq
      rw [heq, hlk] at hk
      exact Option.noConfusion hk
    simp only [hlk]
    unfold candleResult
    rw [lookupA_insertA]
    rw [if_neg (fun h => hne h.symm)]
    exact hk
  · by_cases hcur : c'.status = RecordStatus.current
    · have hne : k ≠ (ta, d) := by
        intro heq
        rw [heq, hlk] at hk
        injection hk with h'
        rw [h', hfin] at hcur
        exact RecordStatus.noConfusion hcur
      simp only [hlk, if_pos hcur]
      unfold candleResult
      rw [lookupA_updateA_ne _ _ _ _ hne]
      exact hk
    · simp only [hlk, if_neg hcur]
      exact hk

lemma updateOrCreate_failed {m : CandleMap} {ta : String} {d : ℕ} {c : Candle}
    (hk : lookupA m (ta, d) = some c) (h : ¬ c.status = RecordStatus.current)
    (vd : ℤ) (vu fd pr : ℚ) (tvl : ℤ) (tvlU : ℚ) :
    candleFailed (updateOrCreateCurrentRecord m ta d vd vu fd pr tvl tvlU) = true := by
  unfold updateOrCreateCurrentRecord
  simp only [hk, if_neg h]
  rfl

lemma finalizeCandles_preserves_finalized {m : CandleMap} {k : String × ℕ}
    {c : Candle} (hk : lookupA m k = some c)
    (hfin : c.status = RecordStatus.finalized) (bucket : ℕ) :
    lookupA (finalizeCandles m bucket) k = some c := by
  induction m with
  | nil => simp [lookupA] at hk
  | cons kv rest ih =>
    obtain ⟨k', v⟩ := kv
    by_cases hkk : k' = k
    · subst hkk
      have hv : v = c := by simpa [lookupA] using hk
      subst hv
      have hcond : ¬ ((k', v).1.2 = bucket ∧ (k', v).2.status = RecordStatus.current) := by
        rintro ⟨-, hcur⟩
        dsimp only at hcur
        rw [hfin] at hcur
        exact RecordStatus.noConfusion hcur
      simp only [finalizeCandles, List.map, if_neg hcond]
      simp [lookupA]
    · have htail : lookupA rest k = some c := by
        simpa [lookupA, hkk] using hk
      have ihr := ih htail
      simp only [finalizeCandles, List.map] at ihr ⊢
      by_cases hcond : ((k', v).1.2 = bucket ∧ (k', v).2.status = RecordStatus.current)
      · rw [if_pos hcond]
        simpa [lookupA, hkk] using ihr
      · rw [if_neg hcond]
        simpa [lookupA, hkk] using ihr

lemma updateCurrentRecord_preserves_finalized (cfg : Config) (env : Env)
    (db : DB) (swap : SwapRec) (ta : String) (is0 : Bool) (k : String × ℕ)
    (c : Candle) (hfin : c.status = RecordStatus.finalized) :
    (lookupA db.minuteCandles k = some c →
      lookupA (updateCurrentRecord cfg env db swap ta is0).1.minuteCandles k = some c) ∧
    (lookupA db.hourCandles k = some c →
      lookupA (updateCurrentRecord cfg env db swap ta is0).1.hourCandles k = some c) ∧
    (lookupA db.dayCandles k = some c →
      lookupA (updateCurrentRecord cfg env db swap ta is0).1.dayCandles k = some c) := by
  unfold updateCurrentRecord
  rcases hlk : lookupA db.tokens ta with _ | t <;>
    simp only [hlk] <;>
    (try dsimp only) <;>
    split <;>
    exact ⟨fun hk => updateOrCreate_preserves_finalized hk hfin _ _ _ _ _ _ _ _,
           fun hk => updateOrCreate_preserves_finalized hk hfin _ _ _ _ _ _ _ _,
           fun hk => updateOrCreate_preserves_finalized hk hfin _ _ _ _ _ _ _ _⟩

lemma processSwapEvent_preserves_finalized (cfg : Config) (env : Env) (db : DB)
    (swap : SwapRec) (k : String × ℕ) (c : Candle)
    (hfin : c.status = RecordStatus.finalized) :
    (lookupA db.minuteCandles k = some c →
      lookupA (processSwapEvent cfg env db swap).1.minuteCandles k = some c) ∧
    (lookupA db.hourCandles k = some c →
      lookupA (processSwapEvent cfg env db swap).1.hourCandles k = some c) ∧
    (lookupA db.dayCandles k = some c →
      lookupA (processSwapEvent cfg env db swap).1.dayCandles k = some c) := by
  have h0 := updateCurrentRecord_preserves_finalized cfg env db swap
    swap.token0Address true k c hfin
  have h1 := updateCurrentRecord_preserves_finalized cfg env
    (updateCurrentRecord cfg env db swap swap.token0Address true).1 swap
    swap.token1Address false k c hfin
  unfold processSwapEvent
  by_cases hf0 : (updateCurrentRecord cfg env db swap swap.token0Address true).2 = true
  · simp only [hf0, if_pos rfl]
    exact h0
  · have hf0' : (updateCurrentRecord cfg env db swap swap.token0Address true).2 = false := by
      simpa using hf0
    simp only [hf0', Bool.false_eq_true, if_neg, ite_false]
    by_cases hf1 : (updateCurrentRecord cfg env
        (updateCurrentRecord cfg env db swap swap.token0Address true).1 swap
        swap.token1Address false).2 = true
    · simp only [hf1, if_pos rfl]
      exact ⟨fun hk => h1.1 (h0.1 hk), fun hk => h1.2.1 (h0.2.1 hk),
             fun hk => h1.2.2 (h0.2.2 hk)⟩
    · have hf1' : (updateCurrentRecord cfg env
          (updateCurrentRecord cfg env db swap swap.token0Address true).1 swap
          swap.token1Address false).2 = false := by
        simpa using hf1
      simp only [hf1', Bool.false_eq_true, if_neg, ite_false]
      exact ⟨fun hk => h1.1 (h0.1 hk), fun hk => h1.2.1 (h0.2.1 hk),
             fun hk => h1.2.2 (h0.2.2 hk)⟩

lemma ptwu_minute (db : DB) (ta pid : String) :
    (processTokenWhitelistUpdate db ta pid).minuteCandles = db.minuteCandles := by
  unfold processTokenWhitelistUpdate
  rcases h : lookupA db.tokens ta with _ | t <;> simp only [h]

lemma ptwu_hour (db : DB) (ta pid : String) :
    (processTokenWhitelistUpdate db ta pid).hourCandles = db.hourCandles := by
  unfold processTokenWhitelistUpdate
  rcases h : lookupA db.tokens ta with _ | t <;> simp only [h]

lemma ptwu_day (db : DB) (ta pid : String) :
    (processTokenWhitelistUpdate db ta pid).dayCandles = db.dayCandles := by
  unfold processTokenWhitelistUpdate
  rcases h : lookupA db.tokens ta with _ | t <;> simp only [h]

lemma utw_candles (cfg : Config) (db : DB) (pid c0 c1 : String) :
    (updateTokenWhitelists cfg db pid c0 c1).minuteCandles = db.minuteCandles ∧
    (updateTokenWhitelists cfg db pid c0 c1).hourCandles = db.hourCandles ∧
    (updateTokenWhitelists cfg db pid c0 c1).dayCandles = db.dayCandles := by
  unfold updateTokenWhitelists
  split <;> split <;>
    exact ⟨by simp [ptwu_minute], by simp [ptwu_hour], by simp [ptwu_day]⟩

lemma handleInitialize_candles (cfg : Config) (env : Env) (db : DB)
    (ev : InitData) :
    (handleInitializeEvent cfg env db ev).1.minuteCandles = db.minuteCandles ∧
    (handleInitializeEvent cfg env db ev).1.hourCandles = db.hourCandles ∧
    (handleInitializeEvent cfg env db ev).1.dayCandles = db.dayCandles := by
  unfold handleInitializeEvent
  rcases hlk : lookupA db.pools ev.id with _ | pool <;> simp only [hlk]
  · exact ⟨by simp [utw_candles cfg _ ev.id ev.currency0 ev.currency1],
           by simp [utw_candles cfg _ ev.id ev.currency0 ev.currency1],
           by simp [utw_candles cfg _ ev.id ev.currency0 ev.currency1]⟩
  · simp

lemma handleML_candles (lm : LiquidityMath) (db : DB) (ev : MLData) :
    (handleModifyLiquidityEvent lm db ev).1.minuteCandles = db.minuteCandles ∧
    (handleModifyLiquidityEvent lm db ev).1.hourCandles = db.hourCandles ∧
    (handleModifyLiquidityEvent lm db ev).1.dayCandles = db.dayCandles := by
  unfold handleModifyLiquidityEvent
  rcases hlk : lookupA db.pools ev.poolId with _ | pool <;> simp [hlk]

set_option maxHeartbeats 1000000 in
lemma handleSwapEvent_preserves_finalized (cfg : Config) (env : Env) (db : DB)
    (ev : SwapData) (k : String × ℕ) (c : Candle)
    (hfin : c.status = RecordStatus.finalized) :
    (lookupA db.minuteCandles k = some c →
      lookupA (handleSwapEvent cfg env db ev).1.minuteCandles k = some c) ∧
    (lookupA db.hourCandles k = some c →
      lookupA (handleSwapEvent cfg env db ev).1.hourCandles k = some c) ∧
    (lookupA db.dayCandles k = some c →
      lookupA (handleSwapEvent cfg env db ev).1.dayCandles k = some c) := by
  unfold handleSwapEvent
  rcases hpool : lookupA db.pools ev.poolId with _ | pool
  · simp only [hpool]
    exact ⟨fun hk => hk, fun hk => hk, fun hk => hk⟩
  · simp only [hpool]
    (try dsimp only)
    rcases hdup : lookupA db.swaps (ev.transactionHash, ev.logIndex) with _ | r <;>
      simp only [hdup] <;> (try dsimp only)
    · exact processSwapEvent_preserves_finalized cfg env
        (dbAfterSwapInsert env db pool ev) (srecOf env db pool ev) k c hfin
    · exact ⟨fun hk => hk, fun hk => hk, fun hk => hk⟩

lemma updateCurrentRecord_flag_finalized (cfg : Config) (env : Env) (db : DB)
    (swap : SwapRec) (ta : String) (is0 : Bool) (c : Candle)
    (hk : lookupA db.minuteCandles
      (ta, roundTimestamp swap.blockTimestamp TimeInterval.minute) = some c)
    (hnc : ¬ c.status = RecordStatus.current) :
    (updateCurrentRecord cfg env db swap ta is0).2 = true := by
  unfold updateCurrentRecord
  rcases hlk : lookupA db.tokens ta with _ | t <;>
    simp only [hlk] <;>
    (try dsimp only) <;>
    split <;>
    simp [updateOrCreate_failed hk hnc]

lemma processSwapEvent_error_log (cfg : Config) (env : Env) (db : DB)
    (swap : SwapRec)
    (h : (updateCurrentRecord cfg env db swap swap.token0Address true).2 = true) :
    (processSwapEvent cfg env db swap).2 = [msgAggError] := by
  unfold processSwapEvent
  simp [h]

/-- Counterexample to C5 as stated: a swap hitting the finalized minute row
    of `db5` leaves the row unchanged, but NO WARNING is logged for it — the
    handler logs the new-swap info line and the aggregation logs the
    swallowed duplicate-key failure at ERROR level. -/
theorem finalized_hit_logs_error_not_warning :
    lookupA (handleSwapEvent cfg0 env0 db5 ev5).1.minuteCandles ("a", 0) =
      some finCandle ∧
    (handleSwapEvent cfg0 env0 db5 ev5).2 = [msgNewSwap, msgAggError] ∧
    ((handleSwapEvent cfg0 env0 db5 ev5).2.all
      (fun e => !(e.level == LogLevel.warn))) = true := by
  have hlogs : (handleSwapEvent cfg0 env0 db5 ev5).2 = [msgNewSwap, msgAggError] := by
    simp [handleSwapEvent, db5, ev5, ev0, pool0, lookupA, processSwapEvent,
      updateCurrentRecord, fetchTokenDecimals, fetchTokenMetadata, cfg0, env0,
      zeroAddress, newTokenRecord, findNativePerToken, roundTimestamp,
      intervalSeconds, updateOrCreateCurrentRecord, finCandle, newCandle,
      candleFailed, insertA, updateA, srecOf, dbAfterSwapInsert, poolAfterSwap]
  refine ⟨?_, hlogs, ?_⟩
  · exact (handleSwapEvent_preserves_finalized cfg0 env0 db5 ev5 ("a", 0)
      finCandle rfl).1 (by simp [db5, lookupA])
  · rw [hlogs]
    decide

/-- Claim **C5 (amended)**: once a candle row is finalized no operation of the
    pipeline (Initialize, Swap, ModifyLiquidity handling, or a period
    finalization) mutates it.  A swap whose token0 minute bucket resolves to
    a finalized `(tokenAddress, date)` leaves that row unchanged — the
    re-create attempt hits the unique index and the duplicate-key rejection
    is swallowed by `processSwapEvent`, which logs it at ERROR level (not as
    a warning): the handler's log trail is exactly
    `[msgNewSwap, msgAggError]`. -/
theorem finalized_rows_immutable (cfg : Config) (env : Env) (lm : LiquidityMath)
    (db : DB) (op : Op) (k : String × ℕ) (c : Candle)
    (hfin : c.status = RecordStatus.finalized) :
    (lookupA db.minuteCandles k = some c →
      lookupA (applyOp cfg env lm db op).1.minuteCandles k = some c) ∧
    (lookupA db.hourCandles k = some c →
      lookupA (applyOp cfg env lm db op).1.hourCandles k = some c) ∧
    (lookupA db.dayCandles k = some c →
      lookupA (applyOp cfg env lm db op).1.dayCandles k = some c) ∧
    (∀ ev pool, op = Op.event (EventData.swapEv ev) →
      lookupA db.pools ev.poolId = some pool →
      lookupA db.swaps (ev.transactionHash, ev.logIndex) = none →
      lookupA db.minuteCandles
        (pool.currency0, roundTimestamp ev.blockTimestamp TimeInterval.minute) =
          some c →
      (handleSwapEvent cfg env db ev).2 = [msgNewSwap, msgAggError]) := by
  have hswap4 : ∀ (ev : SwapData) (pool : Pool),
      lookupA db.pools ev.poolId = some pool →
      lookupA db.swaps (ev.transactionHash, ev.logIndex) = none →
      lookupA db.minuteCandles
        (pool.currency0, roundTimestamp ev.blockTimestamp TimeInterval.minute) =
          some c →
      (handleSwapEvent cfg env db ev).2 = [msgNewSwap, msgAggError] := by
    intro ev pool hpool hdup hk
    unfold handleSwapEvent
    simp only [hpool]
    (try dsimp only)
    simp only [hdup]
    (try dsimp only)
    rw [processSwapEvent_error_log cfg env _ _
      (updateCurrentRecord_flag_finalized cfg env _ _ _ true c hk
        (by rw [hfin]; exact fun hh => RecordStatus.noConfusion hh))]
  have htriple :
      (lookupA db.minuteCandles k = some c →
        lookupA (applyOp cfg env lm db op).1.minuteCandles k = some c) ∧
      (lookupA db.hourCandles k = some c →
        lookupA (applyOp cfg env lm db op).1.hourCandles k = some c) ∧
      (lookupA db.dayCandles k = some c →
        lookupA (applyOp cfg env lm db op).1.dayCandles k = some c) := by
    cases op with
    | event e =>
      cases e with
      | initEv e =>
        obtain ⟨hm, hh, hd⟩ := handleInitialize_candles cfg env db e
        exact ⟨fun hk => by dsimp only [applyOp, dispatchEvent]; rw [hm]; exact hk,
               fun hk => by dsimp only [applyOp, dispatchEvent]; rw [hh]; exact hk,
               fun hk => by dsimp only [applyOp, dispatchEvent]; rw [hd]; exact hk⟩
      | swapEv e =>
        exact handleSwapEvent_preserves_finalized cfg env db e k c hfin
      | mlEv e =>
        obtain ⟨hm, hh, hd⟩ := handleML_candles lm db e
        exact ⟨fun hk => by dsimp only [applyOp, dispatchEvent]; rw [hm]; exact hk,
               fun hk => by dsimp only [applyOp, dispatchEvent]; rw [hh]; exact hk,
               fun hk => by dsimp only [applyOp, dispatchEvent]; rw [hd]; exact hk⟩
    | finalize i now =>
      cases i with
      | minute =>
        exact ⟨fun hk => finalizeCandles_preserves_finalized hk hfin _,
               fun hk => hk, fun hk => hk⟩
      | hour =>
        exact ⟨fun hk => hk,
               fun hk => finalizeCandles_preserves_finalized hk hfin _,
               fun hk => hk⟩
      | day =>
        exact ⟨fun hk => hk, fun hk => hk,
               fun hk => finalizeCandles_preserves_finalized hk hfin _⟩
  exact ⟨htriple.1, htriple.2.1, htriple.2.2,
    fun ev pool _ => hswap4 ev pool⟩

/-- Witness for the amended C5: the finalized row of `db5` survives the
    colliding swap `ev5`, whose log trail ends in the error entry. -/
theorem finalized_rows_immutable_witness :
    finCandle.status = RecordStatus.finalized ∧
    lookupA (applyOp cfg0 env0 lm0 db5
      (Op.event (EventData.swapEv ev5))).1.minuteCandles ("a", 0) = some finCandle :=
  ⟨rfl,
   (finalized_rows_immutable cfg0 env0 lm0 db5
      (Op.event (EventData.swapEv ev5)) ("a", 0) finCandle rfl).1
     (by simp [db5, lookupA])⟩

/-! ## C3: cumulative token volume and transaction count -/

lemma absAmount_nonneg (v : ℤ) : 0 ≤ absAmount v := by
  unfold absAmount
  split <;> omega

lemma updateOrCreate_ok {m : CandleMap} (hm : noFinalized m) (ta : String)
    (d : ℕ) (vd : ℤ) (vu fd pr : ℚ) (tvl : ℤ) (tvlU : ℚ) :
    candleFailed (updateOrCreateCurrentRecord m ta d vd vu fd pr tvl tvlU) = false ∧
    noFinalized (candleResult m
      (updateOrCreateCurrentRecord m ta d vd vu fd pr tvl tvlU)) := by
  unfold updateOrCreateCurrentRecord
  rcases hlk : lookupA m (ta, d) with _ | c
  · simp only [hlk]
    refine ⟨rfl, ?_⟩
    unfold candleResult noFinalized insertA
    intro kv hkv
    rcases List.mem_cons.mp hkv with h | h
    · subst h; rfl
    · exact hm kv h
  · have hcur : c.status = RecordStatus.current := hm _ (mem_of_lookupA hlk)
    simp only [hlk, if_pos hcur]
    refine ⟨rfl, ?_⟩
    unfold candleResult
    have hm' : ∀ kv ∈ m, kv.2.status = RecordStatus.current := hm
    have hgoal : ∀ kv ∈ updateA m (ta, d)
        (foldCandle c vd vu fd pr tvl tvlU), kv.2.status = RecordStatus.current :=
      updateA_forall (P := fun cc : Candle => cc.status = RecordStatus.current) hm'
        (show (foldCandle c vd vu fd pr tvl tvlU).status = RecordStatus.current from hcur)
    exact hgoal

lemma updateCurrentRecord_flag_nofin (cfg : Config) (env : Env) (db : DB)
    (swap : SwapRec) (ta : String) (is0 : Bool) (hdb : dbNoFinalized db) :
    (updateCurrentRecord cfg env db swap ta is0).2 = false ∧
    dbNoFinalized (updateCurrentRecord cfg env db swap ta is0).1 := by
  obtain ⟨h1, h2, h3⟩ := hdb
  unfold updateCurrentRecord
  rcases hlk : lookupA db.tokens ta with _ | t <;>
    simp only [hlk] <;> (try dsimp only) <;> split <;>
    exact ⟨by simp [(updateOrCreate_ok h1 _ _ _ _ _ _ _ _).1,
                    (updateOrCreate_ok h2 _ _ _ _ _ _ _ _).1,
                    (updateOrCreate_ok h3 _ _ _ _ _ _ _ _).1],
           (updateOrCreate_ok h1 _ _ _ _ _ _ _ _).2,
           (updateOrCreate_ok h2 _ _ _ _ _ _ _ _).2,
           (updateOrCreate_ok h3 _ _ _ _ _ _ _ _).2⟩

lemma lookupA_updateA_insertA_same {α β : Type} [DecidableEq α]
    (m : List (α × β)) (a : α) (b1 b2 : β) :
    lookupA (updateA (insertA m a b1) a b2) a = some b2 := by
  rw [lookupA_updateA_same, lookupA_insertA]
  simp

lemma lookupA_updateA_updateA_ne {α β : Type} [DecidableEq α]
    (m : List (α × β)) (a x : α) (b1 b2 : β) (h : x ≠ a) :
    lookupA (updateA (updateA m a b1) a b2) x = lookupA m x := by
  rw [lookupA_updateA_ne _ _ _ _ h, lookupA_updateA_ne _ _ _ _ h]

lemma updateCurrentRecord_tokens (cfg : Config) (env : Env) (db : DB)
    (swap : SwapRec) (ta : String) (is0 : Bool) :
    (∀ a, tokenVolume (updateCurrentRecord cfg env db swap ta is0).1 a =
      tokenVolume db a +
        (if ta = a then absAmount (if is0 then swap.amount0 else swap.amount1) else 0)) ∧
    (∀ a, tokenTxCount (updateCurrentRecord cfg env db swap ta is0).1 a =
      tokenTxCount db a + (if ta = a then 1 else 0)) := by
  unfold updateCurrentRecord
  rcases hlk : lookupA db.tokens ta with _ | t <;>
    simp only [hlk] <;> (try dsimp only) <;> split <;>
    refine ⟨fun a => ?_, fun a => ?_⟩ <;>
    simp only [tokenVolume, tokenTxCount] <;>
    by_cases haa : ta = a
  -- in the `ta = a` leaves, resolve the rewritten lookups at key ta;
  -- in the `ta ≠ a` leaves, the writes at key ta do not affect key a
  all_goals
    first
    | (subst haa
       simp only [lookupA_updateA_same, lookupA_updateA_insertA_same,
         lookupA_insertA, hlk, Option.map_some', if_pos rfl]
       simp [newTokenRecord, whitelistInsertToken])
    | (simp only [lookupA_updateA_ne _ _ _ _ (Ne.symm haa),
         lookupA_updateA_updateA_ne _ _ _ _ _ (Ne.symm haa), lookupA_insertA,
         if_neg (fun h => haa h), if_neg haa, add_zero]
       try simp only [lookupA_updateA_ne _ _ _ _ (Ne.symm haa), lookupA_insertA,
         if_neg (fun h => haa h)])

lemma processSwapEvent_spec (cfg : Config) (env : Env) (db : DB)
    (swap : SwapRec) (hdb : dbNoFinalized db) :
    dbNoFinalized (processSwapEvent cfg env db swap).1 ∧
    (∀ a, tokenVolume (processSwapEvent cfg env db swap).1 a =
      tokenVolume db a +
        ((if swap.token0Address = a then absAmount swap.amount0 else 0) +
         (if swap.token1Address = a then absAmount swap.amount1 else 0))) ∧
    (∀ a, tokenTxCount (processSwapEvent cfg env db swap).1 a =
      tokenTxCount db a +
        ((if swap.token0Address = a then 1 else 0) +
         (if swap.token1Address = a then 1 else 0))) := by
  have hf0 := updateCurrentRecord_flag_nofin cfg env db swap swap.token0Address
    true hdb
  have hf1 := updateCurrentRecord_flag_nofin cfg env
    (updateCurrentRecord cfg env db swap swap.token0Address true).1 swap
    swap.token1Address false hf0.2
  have ht0 := updateCurrentRecord_tokens cfg env db swap swap.token0Address true
  have ht1 := updateCurrentRecord_tokens cfg env
    (updateCurrentRecord cfg env db swap swap.token0Address true).1 swap
    swap.token1Address false
  unfold processSwapEvent
  simp only [hf0.1, hf1.1, Bool.false_eq_true, if_false]
  refine ⟨hf1.2, fun a => ?_, fun a => ?_⟩
  · rw [ht1.1 a, ht0.1 a]
    have e1 : (if (true = true) then swap.amount0 else swap.amount1) =
        swap.amount0 := rfl
    have e0 : (if (false = true) then swap.amount0 else swap.amount1) =
        swap.amount1 := rfl
    rw [e1, e0]
    omega
  · rw [ht1.2 a, ht0.2 a]
    omega

lemma applySwaps_token_totals (cfg : Config) (env : Env) :
    ∀ (svs : List SwapRec) (db : DB) (a : String), dbNoFinalized db →
      (∀ s ∈ svs, s.token0Address ≠ s.token1Address) →
      tokenVolume (applySwaps cfg env db svs) a =
        tokenVolume db a +
          ((svs.filter (touches a)).map (eventAmountFor a)).sum ∧
      tokenTxCount (applySwaps cfg env db svs) a =
        tokenTxCount db a + (svs.filter (touches a)).length := by
  intro svs
  induction svs with
  | nil =>
    intro db a _ _
    simp [applySwaps]
  | cons s rest ih =>
    intro db a hdb hdist
    have hs := processSwapEvent_spec cfg env db s hdb
    have ihr := ih (processSwapEvent cfg env db s).1 a hs.1
      (fun x hx => hdist x (List.mem_cons_of_mem _ hx))
    have happ : applySwaps cfg env db (s :: rest) =
        applySwaps cfg env (processSwapEvent cfg env db s).1 rest := rfl
    rw [happ]
    have hne := hdist s (List.mem_cons_self _ _)
    cases htch : touches a s with
    | true =>
      have hor : s.token0Address = a ∨ s.token1Address = a := by
        simpa [touches] using htch
      have hc1 : (if s.token0Address = a then absAmount s.amount0 else 0) +
          (if s.token1Address = a then absAmount s.amount1 else 0) =
          eventAmountFor a s := by
        unfold eventAmountFor
        rcases hor with h0 | h1
        · have h1 : ¬ s.token1Address = a := fun hh => hne (h0.trans hh.symm)
          simp [h0, h1]
        · by_cases h0 : s.token0Address = a
          · exact absurd (h0.trans h1.symm) hne
          · simp [h0, h1]
      have hc2 : (if s.token0Address = a then (1 : ℕ) else 0) +
          (if s.token1Address = a then 1 else 0) = 1 := by
        rcases hor with h0 | h1
        · have h1 : ¬ s.token1Address = a := fun hh => hne (h0.trans hh.symm)
          simp [h0, h1]
        · by_cases h0 : s.token0Address = a
          · exact absurd (h0.trans h1.symm) hne
          · simp [h0, h1]
      simp only [List.filter_cons, htch, if_true, List.map_cons, List.sum_cons,
        List.length_cons]
      refine ⟨?_, ?_⟩
      · rw [ihr.1, hs.2.1 a, hc1]
        omega
      · rw [ihr.2, hs.2.2 a, hc2]
        omega
    | false =>
      have hno : ¬ s.token0Address = a ∧ ¬ s.token1Address = a := by
        simpa [touches] using htch
      simp only [List.filter_cons, htch, Bool.false_eq_true, if_false, ite_false]
      refine ⟨?_, ?_⟩
      · rw [ihr.1, hs.2.1 a]
        simp only [if_neg hno.1, if_neg hno.2, add_zero]
      · rw [ihr.2, hs.2.2 a]
        simp only [if_neg hno.1, if_neg hno.2, add_zero]

/-- Claim **C3**: folding any list of (non-duplicate) persisted swap events
    through the aggregation, starting from a store with no finalized candle
    (so no write is rejected), gives, for every token address, a cumulative
    `Token.volume` equal to its prior value plus the sum of `|amount_i|`
    over the swaps touching that token (`amount0` when it is token0,
    `amount1` when it is token1) and a `Token.txCount` equal to its prior
    value plus the number of those swaps; in particular both are
    monotonically non-decreasing. -/
theorem token_volume_txCount_accumulate (cfg : Config) (env : Env) (db : DB)
    (svs : List SwapRec) (a : String) (hdb : dbNoFinalized db)
    (hdist : ∀ s ∈ svs, s.token0Address ≠ s.token1Address) :
    tokenVolume (applySwaps cfg env db svs) a =
      tokenVolume db a + ((svs.filter (touches a)).map (eventAmountFor a)).sum ∧
    tokenTxCount (applySwaps cfg env db svs) a =
      tokenTxCount db a + (svs.filter (touches a)).length ∧
    tokenVolume db a ≤ tokenVolume (applySwaps cfg env db svs) a ∧
    tokenTxCount db a ≤ tokenTxCount (applySwaps cfg env db svs) a := by
  obtain ⟨hv, ht⟩ := applySwaps_token_totals cfg env svs db a hdb hdist
  have hnn : 0 ≤ ((svs.filter (touches a)).map (eventAmountFor a)).sum := by
    apply List.sum_nonneg
    intro x hx
    obtain ⟨s, -, rfl⟩ := List.mem_map.mp hx
    unfold eventAmountFor
    split <;> exact absAmount_nonneg _
  refine ⟨hv, ht, ?_, ?_⟩
  · rw [hv]
    omega
  · rw [ht]
    exact Nat.le_add_right _ _

/-- Witness for C3: one concrete swap over the empty store. -/
theorem token_volume_txCount_accumulate_witness :
    (dbNoFinalized emptyDB ∧
      (∀ s ∈ [srec0], s.token0Address ≠ s.token1Address)) ∧
    tokenVolume (applySwaps cfg0 env0 emptyDB [srec0]) "a" =
      tokenVolume emptyDB "a" +
        (([srec0].filter (touches "a")).map (eventAmountFor "a")).sum :=
  ⟨⟨by decide, by decide⟩,
   (token_volume_txCount_accumulate cfg0 env0 emptyDB [srec0] "a"
      (by decide) (by decide)).1⟩

end V4Chart
